import Mathlib

/-
Verification of the spatial-index / click-selection / scene-manifest core of the
worldLabsHackathonInkling repository.

Shallow embedding conventions:
  - JavaScript numbers are modelled as rationals (ℚ); there are no NaN or
    Infinity values in ℚ, so `Number.isFinite` guards are always true and are
    noted where they occur in the source.
  - The string cell key `"x,y,z"` produced by `gridKey` is injective in the
    three integers, so it is modelled by the integer triple itself.
  - `Map<string, VoxelCell>` (insertion ordered) is modelled as an association
    list `List (GridKey × VoxelCell)` looked up with `List.lookup`; inserting a
    fresh key appends, updating an existing key rewrites in place.
  - `THREE.Box3` values that are never constructed empty are modelled by a pair
    of corner vectors; `Box3.getSize` keeps the empty-box guard of the library.
-/

namespace Inkling

/-- Model of `THREE.Vector3` restricted to the operations the core uses. -/
structure Vec3 where
  x : ℚ
  y : ℚ
  z : ℚ
deriving DecidableEq, Repr

/-- Model of `THREE.Color` (r, g, b channels). -/
structure ColorRGB where
  r : ℚ
  g : ℚ
  b : ℚ
deriving DecidableEq, Repr

/-- Model of `THREE.Box3`: an axis-aligned box given by two corners. -/
structure Box3 where
  min : Vec3
  max : Vec3
deriving DecidableEq, Repr

/-- `THREE.MathUtils.clamp(value, lo, hi) = Math.max(lo, Math.min(hi, value))`. -/
def clampQ (value lo hi : ℚ) : ℚ :=
  max lo (min hi value)

/-- `THREE.Box3.containsPoint`: inclusive on all six faces. -/
def containsPoint (b : Box3) (p : Vec3) : Bool :=
  decide (b.min.x ≤ p.x ∧ p.x ≤ b.max.x ∧
          b.min.y ≤ p.y ∧ p.y ≤ b.max.y ∧
          b.min.z ≤ p.z ∧ p.z ≤ b.max.z)

/-- `THREE.Box3.getSize`: the zero vector for an empty box, else `max - min`. -/
def getSize (b : Box3) : Vec3 :=
  if b.max.x < b.min.x ∨ b.max.y < b.min.y ∨ b.max.z < b.min.z then ⟨0, 0, 0⟩
  else ⟨b.max.x - b.min.x, b.max.y - b.min.y, b.max.z - b.min.z⟩

/-- `THREE.Vector3.distanceToSquared`. -/
def distanceToSquared (a b : Vec3) : ℚ :=
  (a.x - b.x) ^ 2 + (a.y - b.y) ^ 2 + (a.z - b.z) ^ 2

/-- The integer-triple model of the string key `"x,y,z"` (`gridKey` in
`spatial-index.ts` is injective, so the triple is a faithful key). -/
abbrev GridKey := ℤ × ℤ × ℤ

/-- `gridKey` from `spatial-index.ts`. -/
def gridKey (x y z : ℤ) : GridKey := (x, y, z)

/-- `VoxelCell` from `types.ts`. -/
structure VoxelCell where
  gridPos : GridKey
  worldCenter : Vec3
  worldBounds : Box3
  splatCount : ℕ
  avgColor : ColorRGB
  colorVariance : ℚ
  density : ℚ
  splatIndices : List ℕ
deriving DecidableEq, Repr

/-- `SpatialGrid` from `types.ts`; the cell map is an insertion-ordered
association list. -/
structure SpatialGrid where
  resolution : ℤ × ℤ × ℤ
  worldBounds : Box3
  cellSize : Vec3
  cells : List (GridKey × VoxelCell)
deriving DecidableEq, Repr

/-- `safeDiv` from `spatial-index.ts`: `d > 0 ? n / d : 0`. -/
def safeDiv (n d : ℚ) : ℚ :=
  if 0 < d then n / d else 0

/-- `computeNominalCellSize` from `spatial-index.ts`. -/
def computeNominalCellSize (bounds : Box3) (resolution : ℤ × ℤ × ℤ) : Vec3 :=
  let size := getSize bounds
  ⟨safeDiv size.x (resolution.1 : ℚ),
   safeDiv size.y (resolution.2.1 : ℚ),
   safeDiv size.z (resolution.2.2 : ℚ)⟩

/-- `CroppedBoundsResult` from `spatial-index.ts`. -/
structure CroppedBoundsResult where
  bounds : Box3
  usedFallback : Bool
deriving DecidableEq, Repr

/-- `computeCroppedBounds` from `spatial-index.ts`.  The
`Number.isFinite(height)` test of the source is always true over ℚ. -/
def computeCroppedBounds (rawBounds : Box3) (cropFractions : ℚ × ℚ) :
    CroppedBoundsResult :=
  let size := getSize rawBounds
  let height := size.y
  if height ≤ 0 then ⟨rawBounds, true⟩
  else
    let minY := rawBounds.min.y + height * cropFractions.1
    let maxY := rawBounds.max.y - height * cropFractions.2
    if ¬ (minY < maxY) then ⟨rawBounds, true⟩
    else
      ⟨{ min := { rawBounds.min with y := minY },
         max := { rawBounds.max with y := maxY } }, false⟩

/-- `normalizeAxis` from `spatial-index.ts`; the `Number.isFinite(size)` test is
always true over ℚ. -/
def normalizeAxis (value minV size : ℚ) : ℚ :=
  if size ≤ 0 then 0 else clampQ ((value - minV) / size) 0 1

/-- `normalizedToIndex` from `spatial-index.ts`. -/
def normalizedToIndex (normalized : ℚ) (resolution : ℤ) : ℤ :=
  if resolution ≤ 1 then 0
  else if 1 ≤ normalized then resolution - 1
  else max 0 (min (resolution - 1) ⌊normalized * (resolution : ℚ)⌋)

/-- `worldPosToGridCoord` from `spatial-index.ts` (the variant with the
`clamp` flag; passing `false` is the no-clamp call). -/
def worldPosToGridCoord (worldPos : Vec3) (gridBounds : Box3)
    (resolution : ℤ × ℤ × ℤ) (clamp : Bool) : Option GridKey :=
  if ¬ containsPoint gridBounds worldPos ∧ ¬ clamp then none
  else
    let size := getSize gridBounds
    let nx := normalizeAxis worldPos.x gridBounds.min.x size.x
    let ny := normalizeAxis worldPos.y gridBounds.min.y size.y
    let nz := normalizeAxis worldPos.z gridBounds.min.z size.z
    some (normalizedToIndex nx resolution.1,
          normalizedToIndex ny resolution.2.1,
          normalizedToIndex nz resolution.2.2)

/-- Componentwise `THREE.Vector3.add`. -/
def Vec3.add (a b : Vec3) : Vec3 :=
  ⟨a.x + b.x, a.y + b.y, a.z + b.z⟩

/-- Componentwise `THREE.Vector3.min` (in-place in the source). -/
def Vec3.minc (a b : Vec3) : Vec3 :=
  ⟨min a.x b.x, min a.y b.y, min a.z b.z⟩

/-- Componentwise `THREE.Vector3.max` (in-place in the source). -/
def Vec3.maxc (a b : Vec3) : Vec3 :=
  ⟨max a.x b.x, max a.y b.y, max a.z b.z⟩

/-- The Point Source (`SplatMesh` in the source): a bounding box provider plus
the synchronous splat iteration `forEachSplat`, which yields
`(index, center, scales, quaternion, opacity, color)`; the grid builder reads
only `(index, center, color)`, so only those are modelled. -/
structure SplatMesh where
  boundingBox : Box3
  splats : List (ℕ × Vec3 × ColorRGB)
deriving DecidableEq, Repr

/-- `SpatialIndexOptions` from `spatial-index.ts` (after merging the caller
options over `DEFAULT_OPTIONS`, which is what `buildSpatialGrid` does first). -/
structure SpatialIndexOptions where
  resolution : ℤ × ℤ × ℤ
  cropYFraction : ℚ × ℚ
  logPrefix : String
deriving DecidableEq, Repr

/-- `DEFAULT_OPTIONS` from `spatial-index.ts`. -/
def DEFAULT_OPTIONS : SpatialIndexOptions :=
  ⟨(20, 20, 20), (1 / 10, 1 / 10), "[spatial]"⟩

/-- `VoxelAccumulator` from `spatial-index.ts`. -/
structure VoxelAccumulator where
  gridPos : GridKey
  count : ℕ
  sumPos : Vec3
  sumColor : Vec3
  sumColorSq : Vec3
  min : Vec3
  max : Vec3
  splatIndices : List ℕ
deriving DecidableEq, Repr

/-- `isDegenerateBounds` from `spatial-index.ts`; the `Number.isFinite` tests
are always true over ℚ. -/
def isDegenerateBounds (bounds : Box3) : Bool :=
  decide ((getSize bounds).x ≤ 0 ∨ (getSize bounds).y ≤ 0 ∨
          (getSize bounds).z ≤ 0)

/-- `Map.set` semantics of a JavaScript `Map` modelled on an association list:
replace in place if the key is present, append otherwise. -/
def updateAssoc {α β : Type} [DecidableEq α] :
    List (α × β) → α → β → List (α × β)
  | [], k, v => [(k, v)]
  | (k0, v0) :: rest, k, v =>
      if k0 = k then (k, v) :: rest else (k0, v0) :: updateAssoc rest k v

/-- One iteration of the `forEachSplat` accumulation loop in
`buildSpatialGrid`. -/
def accumulateSplat (croppedBounds : Box3) (resolution : ℤ × ℤ × ℤ)
    (accs : List (GridKey × VoxelAccumulator)) (s : ℕ × Vec3 × ColorRGB) :
    List (GridKey × VoxelAccumulator) :=
  let index := s.1
  let center := s.2.1
  let color := s.2.2
  match worldPosToGridCoord center croppedBounds resolution false with
  | none => accs
  | some coord =>
    let key := gridKey coord.1 coord.2.1 coord.2.2
    let acc :=
      match accs.lookup key with
      | some a => a
      | none =>
          { gridPos := coord, count := 0, sumPos := ⟨0, 0, 0⟩,
            sumColor := ⟨0, 0, 0⟩, sumColorSq := ⟨0, 0, 0⟩,
            min := center, max := center, splatIndices := [] }
    updateAssoc accs key
      { acc with
          count := acc.count + 1,
          sumPos := acc.sumPos.add center,
          sumColor := ⟨acc.sumColor.x + color.r, acc.sumColor.y + color.g,
                       acc.sumColor.z + color.b⟩,
          sumColorSq := ⟨acc.sumColorSq.x + color.r * color.r,
                         acc.sumColorSq.y + color.g * color.g,
                         acc.sumColorSq.z + color.b * color.b⟩,
          min := acc.min.minc center,
          max := acc.max.maxc center,
          splatIndices := acc.splatIndices ++ [index] }

/-- `finalizeVoxelCell` from `spatial-index.ts`. -/
def finalizeVoxelCell (acc : VoxelAccumulator) (nominalCellVolume : ℚ) :
    VoxelCell :=
  let invCount : ℚ := 1 / (acc.count : ℚ)
  let avgR := acc.sumColor.x * invCount
  let avgG := acc.sumColor.y * invCount
  let avgB := acc.sumColor.z * invCount
  let varianceR := max 0 (acc.sumColorSq.x * invCount - avgR * avgR)
  let varianceG := max 0 (acc.sumColorSq.y * invCount - avgG * avgG)
  let varianceB := max 0 (acc.sumColorSq.z * invCount - avgB * avgB)
  { gridPos := acc.gridPos,
    worldCenter := ⟨acc.sumPos.x * invCount, acc.sumPos.y * invCount,
                    acc.sumPos.z * invCount⟩,
    worldBounds := ⟨acc.min, acc.max⟩,
    splatCount := acc.count,
    avgColor := ⟨avgR, avgG, avgB⟩,
    colorVariance := (varianceR + varianceG + varianceB) / 3,
    density := (acc.count : ℚ) / nominalCellVolume,
    splatIndices := acc.splatIndices }

/-- `buildSpatialGrid` from `spatial-index.ts` (second revision, the one with
the clamped `worldPosToGridCoord`).  The source never throws: all anomalous
inputs flow into one of the explicit return values below. -/
def buildSpatialGrid (splatMesh : SplatMesh) (options : SpatialIndexOptions) :
    SpatialGrid :=
  let config := options
  let rawBounds := splatMesh.boundingBox
  if isDegenerateBounds rawBounds then
    { resolution := config.resolution, worldBounds := rawBounds,
      cellSize := ⟨0, 0, 0⟩, cells := [] }
  else
    let cropped := computeCroppedBounds rawBounds config.cropYFraction
    let cellSize := computeNominalCellSize cropped.bounds config.resolution
    let nominalCellVolume :=
      max (cellSize.x * cellSize.y * cellSize.z) (1 / 1000000000)
    let accumulators :=
      splatMesh.splats.foldl (accumulateSplat cropped.bounds config.resolution) []
    { resolution := config.resolution,
      worldBounds := cropped.bounds,
      cellSize := cellSize,
      cells := accumulators.map
        (fun e => (e.1, finalizeVoxelCell e.2 nominalCellVolume)) }

/-- The inclusive integer interval `[lo, hi]` (empty when `hi < lo`), the
index set of one axis of the `for` loops in the ring search. -/
def intRange (lo hi : ℤ) : List ℤ :=
  (List.range (hi + 1 - lo).toNat).map (fun i => lo + (i : ℤ))

/-- The occupied cells scanned by the three nested `for` loops of the ring
search in `getCellAtWorldPos` at radius `r` around the clamped coordinate
(the source rescans the full cube `[c - r, c + r]³` clipped to the grid
resolution at every radius). -/
def cubeCells (grid : SpatialGrid) (c : GridKey) (r : ℤ) : List VoxelCell :=
  (intRange (max 0 (c.1 - r)) (min (grid.resolution.1 - 1) (c.1 + r))).flatMap
    fun x =>
  (intRange (max 0 (c.2.1 - r)) (min (grid.resolution.2.1 - 1) (c.2.1 + r))).flatMap
    fun y =>
  (intRange (max 0 (c.2.2 - r)) (min (grid.resolution.2.2 - 1) (c.2.2 + r))).filterMap
    fun z => grid.cells.lookup (gridKey x y z)

/-- The body of the innermost ring-search loop of `getCellAtWorldPos`: keep
the candidate whose squared world distance to the query is smallest so far. -/
def ringStep (pos : Vec3) (best : Option (VoxelCell × ℚ))
    (neighbor : VoxelCell) : Option (VoxelCell × ℚ) :=
  let dist := distanceToSquared neighbor.worldCenter pos
  match best with
  | none => some (neighbor, dist)
  | some (b, bd) => if dist < bd then some (neighbor, dist) else some (b, bd)

/-- `minRingDist` of `getCellAtWorldPos`:
`Math.min(cellSize.x, cellSize.y, cellSize.z) * (r - 1)`. -/
def minRingDist (grid : SpatialGrid) (r : ℤ) : ℚ :=
  min (min grid.cellSize.x grid.cellSize.y) grid.cellSize.z * ((r : ℚ) - 1)

/-- The early-exit test `minRingDist * minRingDist > bestDist` of the ring
search; `bestDist` starts as `Infinity`, modelled by `none`, for which the
test is false. -/
def breakCond (best : Option (VoxelCell × ℚ)) (m : ℚ) : Bool :=
  match best with
  | none => false
  | some (_, bd) => decide (bd < m * m)

/-- The `for (let r = 1; r <= 5; r++)` ring loop of `getCellAtWorldPos`,
instrumented to also return the list of occupied cells it examined (the
second component), which the specification below quantifies over. -/
def ringLoop (grid : SpatialGrid) (pos : Vec3) (c : GridKey) :
    List ℤ → Option (VoxelCell × ℚ) →
    Option (VoxelCell × ℚ) × List VoxelCell
  | [], best => (best, [])
  | r :: rs, best =>
    if breakCond best (minRingDist grid r) then (best, [])
    else
      let cells := cubeCells grid c r
      let best2 := cells.foldl (ringStep pos) best
      let rest := ringLoop grid pos c rs best2
      (rest.1, cells ++ rest.2)

/-- `getCellAtWorldPos` from `spatial-index.ts` (second revision): exact
lookup, then clamped lookup, then the capped expanding ring search. -/
def getCellAtWorldPos (grid : SpatialGrid) (pos : Vec3) : Option VoxelCell :=
  let exactHit :=
    match worldPosToGridCoord pos grid.worldBounds grid.resolution false with
    | some coord => grid.cells.lookup (gridKey coord.1 coord.2.1 coord.2.2)
    | none => none
  match exactHit with
  | some cell => some cell
  | none =>
    match worldPosToGridCoord pos grid.worldBounds grid.resolution true with
    | none => none
    | some clamped =>
      match grid.cells.lookup (gridKey clamped.1 clamped.2.1 clamped.2.2) with
      | some cell => some cell
      | none =>
          ((ringLoop grid pos clamped [1, 2, 3, 4, 5] none).1).map Prod.fst

/-- `Math.round(n * 100) / 100` (the `r2` helper of
`serializeSpatialGridForLLM`); `Math.round(x)` is `⌊x + 1/2⌋`. -/
def r2 (n : ℚ) : ℚ := (⌊n * 100 + 1 / 2⌋ : ℚ) / 100

/-- `r2` applied to each component (`.toArray().map(r2)` in the source). -/
def roundVec (v : Vec3) : Vec3 := ⟨r2 v.x, r2 v.y, r2 v.z⟩

/-- The descending-by-splat-count comparator
`(a, b) => b[1].splatCount - a[1].splatCount` of
`serializeSpatialGridForLLM`, as a relation. -/
def countGe (a b : GridKey × VoxelCell) : Prop :=
  b.2.splatCount ≤ a.2.splatCount

instance : DecidableRel countGe :=
  fun a b => inferInstanceAs (Decidable (b.2.splatCount ≤ a.2.splatCount))

instance : IsTotal (GridKey × VoxelCell) countGe :=
  ⟨fun a b => Nat.le_total b.2.splatCount a.2.splatCount⟩

instance : IsTrans (GridKey × VoxelCell) countGe :=
  ⟨fun _ _ _ hab hbc => le_trans hbc hab⟩

/-- One per-cell record of the serialized payload of
`serializeSpatialGridForLLM` (fields `g, c, d, n, col, cv, den`; the
hex-string rendering of the colour channels is modelled by the channel
values themselves).  There is no `splatIndices` field. -/
structure SerializedCell where
  g : GridKey
  c : Vec3
  d : Vec3
  n : ℕ
  col : ColorRGB
  cv : ℚ
  den : ℚ
deriving DecidableEq, Repr

/-- The full serialized payload of `serializeSpatialGridForLLM` (the object
passed to `JSON.stringify`). -/
structure SerializedGrid where
  resolution : ℤ × ℤ × ℤ
  worldBoundsMin : Vec3
  worldBoundsMax : Vec3
  cellSize : Vec3
  cells : List SerializedCell
deriving DecidableEq, Repr

/-- The per-cell projection inside `serializeSpatialGridForLLM`. -/
def serializeCellEntry (cell : VoxelCell) : SerializedCell :=
  let bSize := getSize cell.worldBounds
  { g := cell.gridPos,
    c := roundVec cell.worldCenter,
    d := ⟨r2 bSize.x, r2 bSize.y, r2 bSize.z⟩,
    n := cell.splatCount,
    col := cell.avgColor,
    cv := r2 cell.colorVariance,
    den := r2 cell.density }

/-- `serializeSpatialGridForLLM` from `spatial-index.ts` (second revision):
filter to cells with `splatCount ≥ minSplats` (source default 10), truncate to
the `maxCells` (source default 600) highest-count cells when over the cap.
The engine sort with the count comparator is modelled by `insertionSort`. -/
def serializeSpatialGridForLLM (grid : SpatialGrid) (maxCells minSplats : ℕ) :
    SerializedGrid :=
  let cells0 := grid.cells.filter (fun e => decide (minSplats ≤ e.2.splatCount))
  let cells :=
    if maxCells < cells0.length then
      (List.insertionSort countGe cells0).take maxCells
    else cells0
  { resolution := grid.resolution,
    worldBoundsMin := roundVec grid.worldBounds.min,
    worldBoundsMax := roundVec grid.worldBounds.max,
    cellSize := roundVec grid.cellSize,
    cells := cells.map (fun e => serializeCellEntry e.2) }

/-- Rewrite the `splatIndices` of one cell map entry, leaving every other
field alone (used to state that the serialization never reads them). -/
def reindexEntry (f : VoxelCell → List ℕ) (e : GridKey × VoxelCell) :
    GridKey × VoxelCell :=
  (e.1, { e.2 with splatIndices := f e.2 })

/-- Replace every cell map entry by the same cell with rewritten
`splatIndices` (used to state that the serialization never reads them). -/
def setSplatIndices (grid : SpatialGrid) (f : VoxelCell → List ℕ) :
    SpatialGrid :=
  { grid with cells := grid.cells.map (reindexEntry f) }

/-- `SDFShapeConfig.type` from `types.ts`. -/
inductive SDFShapeType
  | SPHERE
  | BOX
  | ELLIPSOID
  | CYLINDER
  | CAPSULE
  | PLANE
  | INFINITE_CONE
  | ALL
deriving DecidableEq, Repr

/-- `SDFShapeConfig` from `types.ts`; optional fields the source leaves
undefined are `none`. -/
structure SDFShapeConfig where
  type : SDFShapeType
  position : Vec3
  rotation : Option (ℚ × ℚ × ℚ × ℚ)
  radius : Option ℚ
  scale : Option Vec3
  color : Option ColorRGB
  opacity : Option ℚ
  displace : Option Vec3
deriving DecidableEq, Repr

/-- `Required<SelectionOptions>` from `click-selection.ts` — the fully merged
configuration `{ ...DEFAULT_OPTIONS, ...options }` that `buildLocalSelection`
works with. -/
structure SelectionOptions where
  colorDistanceThreshold : ℚ
  maxVisitedCells : ℕ
  maxDepth : ℕ
  maxClusterCells : ℕ
  minClusterCells : ℕ
  boxPadding : ℚ
deriving DecidableEq, Repr

/-- `DEFAULT_OPTIONS` from `click-selection.ts`
(0.32, 180, 5, 120, 2, 1.14). -/
def DEFAULT_SELECTION_OPTIONS : SelectionOptions :=
  ⟨8 / 25, 180, 5, 120, 2, 57 / 50⟩

/-- `QueueItem` from `click-selection.ts`. -/
structure QueueItem where
  key : GridKey
  cell : VoxelCell
  depth : ℕ
deriving DecidableEq, Repr

/-- The squared Euclidean colour distance.  The source `colorDistance3`
computes `Math.sqrt` of this quantity; only comparisons against the
threshold are ever used, which `colorPassB` models exactly. -/
def colorDistance3Sq (a b : ColorRGB) : ℚ :=
  (a.r - b.r) * (a.r - b.r) + (a.g - b.g) * (a.g - b.g) +
    (a.b - b.b) * (a.b - b.b)

/-- The exact Boolean of the source comparison `colorDistance3(a, b) <= t`:
over the reals `sqrt(d2) ≤ t` holds iff `0 ≤ t ∧ d2 ≤ t * t`, which avoids
embedding the irrational square root. -/
def colorPassB (a b : ColorRGB) (t : ℚ) : Bool :=
  decide (0 ≤ t ∧ colorDistance3Sq a b ≤ t * t)

/-- `getFaceNeighbors` from `click-selection.ts`. -/
def getFaceNeighbors (grid : SpatialGrid) (cell : VoxelCell) :
    List VoxelCell :=
  let x := cell.gridPos.1
  let y := cell.gridPos.2.1
  let z := cell.gridPos.2.2
  let candidates : List GridKey :=
    [(x - 1, y, z), (x + 1, y, z), (x, y - 1, z), (x, y + 1, z),
     (x, y, z - 1), (x, y, z + 1)]
  candidates.filterMap fun c =>
    if c.1 < 0 ∨ c.2.1 < 0 ∨ c.2.2 < 0 ∨ grid.resolution.1 ≤ c.1 ∨
        grid.resolution.2.1 ≤ c.2.1 ∨ grid.resolution.2.2 ≤ c.2.2 then
      none
    else grid.cells.lookup (gridKey c.1 c.2.1 c.2.2)

/-- The loop state of the breadth-first traversal of `buildLocalSelection`
at the moment the `while` loop exits. -/
structure BfsResult where
  visited : Finset GridKey
  accepted : List (GridKey × VoxelCell)
  rejectedCells : ℕ
  reasons : List String
deriving DecidableEq

/-- A finite superset of every key the traversal can ever visit: the seed key
together with the `gridPos` of every cell stored in the grid (termination
measure support). -/
def gridPosUniverse (grid : SpatialGrid) (seedKey : GridKey) :
    Finset GridKey :=
  insert seedKey (grid.cells.map (fun e => e.2.gridPos)).toFinset

/-- The `while (queue.length > 0)` traversal of `buildLocalSelection`,
written as a recursion on the queue.  `u` is any finite key universe that
contains every key of the queue and the `gridPos` of every stored cell; it
exists only to justify termination and does not influence the computation. -/
def bfsLoop (grid : SpatialGrid) (cfg : SelectionOptions) (seedKey : GridKey)
    (seedColor : ColorRGB) (u : Finset GridKey)
    (hu : ∀ k v, grid.cells.lookup k = some v → v.gridPos ∈ u) :
    (queue : List QueueItem) → (∀ i ∈ queue, i.key ∈ u) →
    Finset GridKey → List (GridKey × VoxelCell) → ℕ → List String →
    BfsResult
  | [], _, visited, accepted, rejected, reasons =>
      ⟨visited, accepted, rejected, reasons⟩
  | current :: rest, hq, visited, accepted, rejected, reasons =>
    if hv : current.key ∈ visited then
      bfsLoop grid cfg seedKey seedColor u hu rest
        (fun i hi => hq i (List.mem_cons_of_mem _ hi))
        visited accepted rejected reasons
    else
      if cfg.maxVisitedCells < (insert current.key visited).card then
        ⟨insert current.key visited, accepted, rejected,
         reasons ++ ["maxVisitedCells"]⟩
      else
        if ¬ current.key = seedKey ∧
            ¬ colorPassB current.cell.avgColor seedColor
                cfg.colorDistanceThreshold = true then
          bfsLoop grid cfg seedKey seedColor u hu rest
            (fun i hi => hq i (List.mem_cons_of_mem _ hi))
            (insert current.key visited) accepted (rejected + 1) reasons
        else
          if cfg.maxClusterCells ≤
              (updateAssoc accepted current.key current.cell).length then
            ⟨insert current.key visited,
             updateAssoc accepted current.key current.cell, rejected,
             reasons ++ ["maxClusterCells"]⟩
          else
            if cfg.maxDepth ≤ current.depth then
              bfsLoop grid cfg seedKey seedColor u hu rest
                (fun i hi => hq i (List.mem_cons_of_mem _ hi))
                (insert current.key visited)
                (updateAssoc accepted current.key current.cell)
                rejected reasons
            else
              bfsLoop grid cfg seedKey seedColor u hu
                (rest ++ (getFaceNeighbors grid current.cell).filterMap
                  (fun n =>
                    if n.gridPos ∈ insert current.key visited then none
                    else some ⟨n.gridPos, n, current.depth + 1⟩))
                (by
                  intro i hi
                  rcases List.mem_append.mp hi with hmem | hmem
                  · exact hq i (List.mem_cons_of_mem _ hmem)
                  · rcases List.mem_filterMap.mp hmem with ⟨n, hn, hfn⟩
                    have hkey : i.key = n.gridPos := by
                      by_cases hv2 : n.gridPos ∈ insert current.key visited
                      · rw [if_pos hv2] at hfn
                        exact absurd hfn (by simp)
                      · rw [if_neg hv2] at hfn
                        cases Option.some.inj hfn
                        rfl
                    rcases List.mem_filterMap.mp hn with ⟨cand, -, hbody⟩
                    by_cases hbad : cand.1 < 0 ∨ cand.2.1 < 0 ∨ cand.2.2 < 0 ∨
                        grid.resolution.1 ≤ cand.1 ∨
                        grid.resolution.2.1 ≤ cand.2.1 ∨
                        grid.resolution.2.2 ≤ cand.2.2
                    · rw [if_pos hbad] at hbody
                      exact absurd hbody (by simp)
                    · rw [if_neg hbad] at hbody
                      rw [hkey]
                      exact hu _ n hbody)
                (insert current.key visited)
                (updateAssoc accepted current.key current.cell)
                rejected reasons
  termination_by queue _ visited _ _ _ =>
    ((u.filter (fun k => k ∉ visited)).card, queue.length)
  decreasing_by
    all_goals simp_wf
    · apply Prod.Lex.right
      exact Nat.lt_succ_self _
    all_goals
      apply Prod.Lex.left
      have hcu : current.key ∈ u := hq current (List.mem_cons_self _ _)
      have hsub : u.filter (fun k => ¬ k = current.key ∧ k ∉ visited) ⊆
          u.filter (fun k => k ∉ visited) := by
        intro a ha
        rw [Finset.mem_filter] at ha ⊢
        exact ⟨ha.1, ha.2.2⟩
      have hmem : current.key ∈ u.filter (fun k => k ∉ visited) :=
        Finset.mem_filter.mpr ⟨hcu, hv⟩
      have hnot : current.key ∉
          u.filter (fun k => ¬ k = current.key ∧ k ∉ visited) := by
        rw [Finset.mem_filter]
        rintro ⟨-, h2, -⟩
        exact h2 rfl
      exact Finset.card_lt_card
        ((Finset.ssubset_iff_of_subset hsub).mpr ⟨current.key, hmem, hnot⟩)

/-- `THREE.Box3` as produced by `new THREE.Box3()` followed by
`expandByPoint` calls: the initial empty state (min = +Infinity,
max = -Infinity) has no rational representation and is modelled as `none`. -/
abbrev EBox := Option Box3

/-- `THREE.Box3.expandByPoint`. -/
def eboxExpand (b : EBox) (p : Vec3) : EBox :=
  match b with
  | none => some ⟨p, p⟩
  | some bx => some ⟨bx.min.minc p, bx.max.maxc p⟩

/-- `THREE.Box3.getSize` on a possibly-empty box (zero vector when empty). -/
def eboxGetSize (b : EBox) : Vec3 :=
  match b with
  | none => ⟨0, 0, 0⟩
  | some bx => getSize bx

/-- The `diagnostics` record of `SelectionResult` from `click-selection.ts`. -/
structure SelectionDiagnostics where
  visitedCells : ℕ
  rejectedCells : ℕ
  reason : List String
deriving DecidableEq, Repr

/-- `SelectionResult` from `click-selection.ts`.  The `confidence` field
(`clamp(1 - avgColorDistance / max(1e-4, threshold), 0, 1)`, where
`avgColorDistance` is a mean of square-root colour distances) is irrational
over this embedding and is not mentioned by any claim, so it is omitted. -/
structure SelectionResult where
  seedCellKey : GridKey
  clusterCellKeys : List GridKey
  clusterBounds : EBox
  clusterCenter : Vec3
  suggestedShape : SDFShapeConfig
  diagnostics : SelectionDiagnostics
deriving DecidableEq, Repr

/-- `buildLocalSelection` from `click-selection.ts` (the revision with the
sphere / ellipsoid / box shape heuristics). -/
def buildLocalSelection (grid : SpatialGrid) (click : Vec3)
    (options : SelectionOptions) : Option SelectionResult :=
  match getCellAtWorldPos grid click with
  | none => none
  | some seedCell =>
    let config := options
    let seedKey := seedCell.gridPos
    let seedColor := seedCell.avgColor
    let res := bfsLoop grid config seedKey seedColor
      (gridPosUniverse grid seedKey)
      (fun k v hkv => by
        have hmem : (k, v) ∈ grid.cells := by
          have haux : ∀ l : List (GridKey × VoxelCell),
              l.lookup k = some v → (k, v) ∈ l := by
            intro l
            induction l with
            | nil => intro h; simp [List.lookup] at h
            | cons e t ih =>
              intro h
              rw [List.lookup] at h
              split at h
              · rename_i heq
                cases h
                have : k = e.1 := by simpa using heq
                subst this
                exact List.mem_cons_self _ _
              · exact List.mem_cons_of_mem _ (ih h)
          exact haux grid.cells hkv
        unfold gridPosUniverse
        apply Finset.mem_insert_of_mem
        rw [List.mem_toFinset]
        exact List.mem_map.mpr ⟨(k, v), hmem, rfl⟩)
      [⟨seedKey, seedCell, 0⟩]
      (fun i hi => by
        rcases List.mem_cons.mp hi with h | h
        · subst h
          exact Finset.mem_insert_self _ _
        · exact absurd h (List.not_mem_nil i))
      ∅ [] 0 []
    if res.accepted.length < config.minClusterCells then none
    else
      let clusterCells := res.accepted.map Prod.snd
      let clusterBounds := clusterCells.foldl
        (fun (b : EBox) cell =>
          eboxExpand (eboxExpand b cell.worldBounds.min) cell.worldBounds.max)
        none
      let totalWeight := clusterCells.foldl
        (fun (t : ℚ) cell => t + max 1 (cell.splatCount : ℚ)) 0
      let weightedSum := clusterCells.foldl
        (fun (v : Vec3) cell =>
          ⟨v.x + cell.worldCenter.x * max 1 (cell.splatCount : ℚ),
           v.y + cell.worldCenter.y * max 1 (cell.splatCount : ℚ),
           v.z + cell.worldCenter.z * max 1 (cell.splatCount : ℚ)⟩)
        ⟨0, 0, 0⟩
      let weightedCenter :=
        if 0 < totalWeight then
          (⟨weightedSum.x * (1 / totalWeight),
            weightedSum.y * (1 / totalWeight),
            weightedSum.z * (1 / totalWeight)⟩ : Vec3)
        else weightedSum
      let size := eboxGetSize clusterBounds
      let halfX := max (1 / 20) (size.x * (1 / 2) * config.boxPadding)
      let halfY := max (1 / 20) (size.y * (1 / 2) * config.boxPadding)
      let halfZ := max (1 / 20) (size.z * (1 / 2) * config.boxPadding)
      let maxDim := max size.x (max size.y size.z)
      let minDim := max (min size.x (min size.y size.z)) (1 / 1000)
      let suggestedShape : SDFShapeConfig :=
        if maxDim / minDim < 8 / 5 then
          { type := SDFShapeType.SPHERE, position := weightedCenter,
            rotation := none,
            radius := some (max (1 / 20)
              (((size.x + size.y + size.z) / 6) * config.boxPadding)),
            scale := none, color := none, opacity := none, displace := none }
        else if size.x * (9 / 5) < size.y ∧ size.z * (9 / 5) < size.y then
          { type := SDFShapeType.ELLIPSOID, position := weightedCenter,
            rotation := none, radius := none,
            scale := some ⟨halfX, halfY, halfZ⟩,
            color := none, opacity := none, displace := none }
        else
          { type := SDFShapeType.BOX, position := weightedCenter,
            rotation := none, radius := none,
            scale := some ⟨halfX, halfY, halfZ⟩,
            color := none, opacity := none, displace := none }
      some
        { seedCellKey := seedKey,
          clusterCellKeys := res.accepted.map Prod.fst,
          clusterBounds := clusterBounds,
          clusterCenter := weightedCenter,
          suggestedShape := suggestedShape,
          diagnostics :=
            { visitedCells := res.visited.card,
              rejectedCells := res.rejectedCells,
              reason := res.reasons } }

/-- `MIN_SPLATS_FOR_LABEL` from `scene-manifest.ts`. -/
def MIN_SPLATS_FOR_LABEL : ℕ := 10

/-- `CellLabel` from `scene-manifest.ts`. -/
structure CellLabel where
  label : String
  confidence : ℚ
deriving DecidableEq, Repr

/-- `SemanticRegion` from `types.ts`. -/
structure SemanticRegion where
  label : String
  gridCells : List GridKey
  estimatedBounds : EBox
  dominantColor : ColorRGB
  confidence : ℚ
deriving DecidableEq, Repr

/-- `SceneManifest` from `types.ts`. -/
structure SceneManifest where
  description : String
  regions : List SemanticRegion
  grid : SpatialGrid
  screenshots : List String
deriving DecidableEq, Repr

/-- The h/s/l target record of `THREE.Color.getHSL`. -/
structure HSL where
  h : ℚ
  s : ℚ
  l : ℚ
deriving DecidableEq, Repr

/-- `THREE.Color.getHSL` (the rgb-to-hsl conversion of the three.js
library, called by `classifyCell`). -/
def getHSL (c : ColorRGB) : HSL :=
  let maxv := max c.r (max c.g c.b)
  let minv := min c.r (min c.g c.b)
  let lightness := (minv + maxv) / 2
  if minv = maxv then ⟨0, 0, lightness⟩
  else
    let delta := maxv - minv
    let saturation :=
      if lightness ≤ 1 / 2 then delta / (maxv + minv)
      else delta / (2 - maxv - minv)
    let hue :=
      if maxv = c.r then (c.g - c.b) / delta + (if c.g < c.b then 6 else 0)
      else if maxv = c.g then (c.b - c.r) / delta + 2
      else (c.r - c.g) / delta + 4
    ⟨hue / 6, saturation, lightness⟩

/-- `classifyCell` from `scene-manifest.ts`: the ordered first-match-wins
rule list.  `yMin` and `yHeight` are the fields of the `yRange` record the
function reads. -/
def classifyCell (cell : VoxelCell) (yMin yHeight : ℚ) : CellLabel :=
  let hsl := getHSL cell.avgColor
  let hue := hsl.h * 360
  let sat := hsl.s
  let lum := hsl.l
  let normalizedY :=
    if 0 < yHeight then (cell.worldCenter.y - yMin) / yHeight else 1 / 2
  let isLow := normalizedY < 1 / 4
  let isMid := 1 / 4 ≤ normalizedY ∧ normalizedY < 7 / 10
  let isHigh := 7 / 10 ≤ normalizedY
  let isVertical :=
    yHeight * (1 / 25) < cell.worldBounds.max.y - cell.worldBounds.min.y
  if isHigh ∧ 180 ≤ hue ∧ hue ≤ 260 ∧ 3 / 20 < sat then ⟨"sky", 7 / 10⟩
  else if 80 ≤ hue ∧ hue ≤ 160 ∧ 1 / 10 < sat ∧ isMid then
    ⟨"vegetation", 3 / 5⟩
  else if 80 ≤ hue ∧ hue ≤ 160 ∧ 1 / 10 < sat ∧ isLow then
    ⟨"ground_vegetation", 1 / 2⟩
  else if lum < 3 / 25 then ⟨"shadow", 2 / 5⟩
  else if 1 / 50 < cell.colorVariance ∧ isVertical then ⟨"structure", 1 / 2⟩
  else if isLow ∧ sat < 3 / 20 ∧ 3 / 20 < lum ∧ lum < 13 / 20 then
    ⟨"ground", 1 / 2⟩
  else if isLow ∧ 20 ≤ hue ∧ hue ≤ 50 ∧ 1 / 10 < sat ∧ lum < 3 / 5 then
    ⟨"ground", 9 / 20⟩
  else if ¬ isLow ∧ sat < 3 / 25 ∧ 1 / 5 < lum ∧ lum < 7 / 10 then
    ⟨"structure", 7 / 20⟩
  else if 0 ≤ hue ∧ hue ≤ 60 ∧ 3 / 20 < sat ∧ 3 / 20 < lum then
    ⟨"warm_surface", 3 / 10⟩
  else if isHigh ∧ 7 / 10 < lum then ⟨"bright_area", 7 / 20⟩
  else ⟨"surface", 1 / 5⟩

/-- The per-cell label map of `generateManifest` (its first loop): every
sufficiently populated cell is classified; sparse cells are excluded. -/
def cellLabelsOf (grid : SpatialGrid) : List (GridKey × CellLabel) :=
  grid.cells.foldl
    (fun m e =>
      if e.2.splatCount < MIN_SPLATS_FOR_LABEL then m
      else updateAssoc m e.1
        (classifyCell e.2 grid.worldBounds.min.y (getSize grid.worldBounds).y))
    []

/-- The six face-neighbour candidate keys of `floodFill`. -/
def neighborKeys (k : GridKey) : List GridKey :=
  [(k.1 - 1, k.2.1, k.2.2), (k.1 + 1, k.2.1, k.2.2),
   (k.1, k.2.1 - 1, k.2.2), (k.1, k.2.1 + 1, k.2.2),
   (k.1, k.2.1, k.2.2 - 1), (k.1, k.2.1, k.2.2 + 1)]

/-- The in-resolution test of the neighbour loop of `floodFill`. -/
def inBounds (grid : SpatialGrid) (k : GridKey) : Prop :=
  0 ≤ k.1 ∧ k.1 < grid.resolution.1 ∧ 0 ≤ k.2.1 ∧
    k.2.1 < grid.resolution.2.1 ∧ 0 ≤ k.2.2 ∧ k.2.2 < grid.resolution.2.2

instance (grid : SpatialGrid) (k : GridKey) : Decidable (inBounds grid k) :=
  inferInstanceAs (Decidable (_ ∧ _ ∧ _ ∧ _ ∧ _ ∧ _))

/-- The worklist loop of `floodFill` from `scene-manifest.ts`.  The JS array
used as a stack (push/pop at the end) is modelled with the stack top at the
head of the list, so a JS `push` of the candidate list prepends its reverse;
the set of processed keys is unchanged by this encoding.  The shared mutable
`visited` set threads through as state and is returned alongside the
component. -/
def floodFillLoop (grid : SpatialGrid) (cellLabels : List (GridKey × CellLabel))
    (targetLabel : String) :
    List GridKey → Finset GridKey → List GridKey →
    Finset GridKey × List GridKey
  | [], visited, component => (visited, component)
  | key :: rest, visited, component =>
    if hv : key ∈ visited then
      floodFillLoop grid cellLabels targetLabel rest visited component
    else
      match hl : cellLabels.lookup key with
      | none => floodFillLoop grid cellLabels targetLabel rest visited component
      | some labelInfo =>
        if labelInfo.label ≠ targetLabel then
          floodFillLoop grid cellLabels targetLabel rest visited component
        else
          match grid.cells.lookup key with
          | none =>
              floodFillLoop grid cellLabels targetLabel rest
                (insert key visited) (component ++ [key])
          | some cell =>
              floodFillLoop grid cellLabels targetLabel
                (((neighborKeys cell.gridPos).filter (fun nk =>
                    decide (inBounds grid nk) &&
                    !(decide (nk ∈ insert key visited)) &&
                    (cellLabels.lookup nk).isSome)).reverse ++ rest)
                (insert key visited) (component ++ [key])
  termination_by queue visited _ =>
    (((cellLabels.map Prod.fst).toFinset.filter (fun k => k ∉ visited)).card,
     queue.length)
  decreasing_by
    all_goals simp_wf
    · apply Prod.Lex.right
      exact Nat.lt_succ_self _
    · apply Prod.Lex.right
      exact Nat.lt_succ_self _
    · apply Prod.Lex.right
      exact Nat.lt_succ_self _
    all_goals
      apply Prod.Lex.left
      have hcu : key ∈ (cellLabels.map Prod.fst).toFinset := by
        rw [List.mem_toFinset]
        have haux : ∀ l : List (GridKey × CellLabel),
            l.lookup key = some labelInfo → key ∈ l.map Prod.fst := by
          intro l
          induction l with
          | nil => intro h0; simp [List.lookup] at h0
          | cons e t ih =>
            intro h0
            rw [List.lookup] at h0
            split at h0
            · rename_i heq
              have : key = e.1 := by simpa using heq
              rw [this]
              exact List.mem_map.mpr ⟨e, List.mem_cons_self _ _, rfl⟩
            · exact List.mem_cons_of_mem _ (ih h0)
        exact haux cellLabels hl
      have hsub : (cellLabels.map Prod.fst).toFinset.filter
          (fun k => ¬ k = key ∧ k ∉ visited) ⊆
          (cellLabels.map Prod.fst).toFinset.filter (fun k => k ∉ visited) := by
        intro a ha
        rw [Finset.mem_filter] at ha ⊢
        exact ⟨ha.1, ha.2.2⟩
      have hmem : key ∈ (cellLabels.map Prod.fst).toFinset.filter
          (fun k => k ∉ visited) := Finset.mem_filter.mpr ⟨hcu, hv⟩
      have hnot : key ∉ (cellLabels.map Prod.fst).toFinset.filter
          (fun k => ¬ k = key ∧ k ∉ visited) := by
        rw [Finset.mem_filter]
        rintro ⟨-, h2, -⟩
        exact h2 rfl
      exact Finset.card_lt_card
        ((Finset.ssubset_iff_of_subset hsub).mpr ⟨key, hmem, hnot⟩)

/-- `floodFill` from `scene-manifest.ts`: run the worklist from the start
key, returning the updated shared visited set and the component. -/
def floodFill (grid : SpatialGrid) (cellLabels : List (GridKey × CellLabel))
    (startKey : GridKey) (targetLabel : String) (visited : Finset GridKey) :
    Finset GridKey × List GridKey :=
  floodFillLoop grid cellLabels targetLabel [startKey] visited []

/-- The per-component region summary built inside the `for` loop of
`buildRegions` (bounds, count-weighted dominant colour, mean confidence). -/
def mkRegion (grid : SpatialGrid) (cellLabels : List (GridKey × CellLabel))
    (label : String) (component : List GridKey) : SemanticRegion :=
  let folded := component.foldl
    (fun (acc : EBox × Vec3 × ℚ × ℚ) cellKey =>
      match grid.cells.lookup cellKey with
      | none => acc
      | some cell =>
        (eboxExpand (eboxExpand acc.1 cell.worldBounds.min)
           cell.worldBounds.max,
         ⟨acc.2.1.x + cell.avgColor.r * cell.splatCount,
          acc.2.1.y + cell.avgColor.g * cell.splatCount,
          acc.2.1.z + cell.avgColor.b * cell.splatCount⟩,
         acc.2.2.1 + cell.splatCount,
         acc.2.2.2 +
           (match cellLabels.lookup cellKey with
            | some cl => cl.confidence
            | none => 0)))
    (none, ⟨0, 0, 0⟩, 0, 0)
  let invTotal := if 0 < folded.2.2.1 then 1 / folded.2.2.1 else 0
  { label := label,
    gridCells := component,
    estimatedBounds := folded.1,
    dominantColor := ⟨folded.2.1.x * invTotal, folded.2.1.y * invTotal,
      folded.2.1.z * invTotal⟩,
    confidence :=
      if 0 < component.length then
        folded.2.2.2 / (component.length : ℚ)
      else 0 }

/-- The total splat count of a region (the sort key of `buildRegions`). -/
def regionSplats (grid : SpatialGrid) (rg : SemanticRegion) : ℕ :=
  rg.gridCells.foldl
    (fun s k =>
      s + (match grid.cells.lookup k with
           | some c => c.splatCount
           | none => 0))
    0

/-- The descending-by-splat-count comparator of the final sort of
`buildRegions`, as a relation. -/
def splatsGe (grid : SpatialGrid) (a b : SemanticRegion) : Prop :=
  regionSplats grid b ≤ regionSplats grid a

instance (grid : SpatialGrid) : DecidableRel (splatsGe grid) :=
  fun a b => inferInstanceAs (Decidable (_ ≤ _))

instance (grid : SpatialGrid) : IsTotal SemanticRegion (splatsGe grid) :=
  ⟨fun a b => Nat.le_total (regionSplats grid b) (regionSplats grid a)⟩

instance (grid : SpatialGrid) : IsTrans SemanticRegion (splatsGe grid) :=
  ⟨fun _ _ _ hab hbc => le_trans hbc hab⟩

/-- The region-discovery loop of `buildRegions` (iterating the label map in
insertion order, sharing one visited set across flood fills). -/
def buildRegionsLoop (grid : SpatialGrid)
    (cellLabels : List (GridKey × CellLabel)) :
    List (GridKey × CellLabel) → Finset GridKey → List SemanticRegion →
    List SemanticRegion
  | [], _, regions => regions
  | (key, labelInfo) :: rest, visited, regions =>
    if key ∈ visited then
      buildRegionsLoop grid cellLabels rest visited regions
    else
      let ff := floodFill grid cellLabels key labelInfo.label visited
      if ff.2.length = 0 then
        buildRegionsLoop grid cellLabels rest ff.1 regions
      else
        buildRegionsLoop grid cellLabels rest ff.1
          (regions ++ [mkRegion grid cellLabels labelInfo.label ff.2])

/-- `buildRegions` from `scene-manifest.ts`: discover components, then sort
regions by contained splat count, descending (the engine sort with the
comparator is modelled by `insertionSort`). -/
def buildRegions (grid : SpatialGrid)
    (cellLabels : List (GridKey × CellLabel)) : List SemanticRegion :=
  List.insertionSort (splatsGe grid)
    (buildRegionsLoop grid cellLabels cellLabels ∅ [])

/-- `readableLabel` from `scene-manifest.ts`. -/
def readableLabel (label : String) : String :=
  if label = "sky" then "sky"
  else if label = "vegetation" then "vegetation"
  else if label = "ground_vegetation" then "ground vegetation"
  else if label = "ground" then "ground/pavement"
  else if label = "structure" then "structure/building"
  else if label = "shadow" then "shadow"
  else if label = "warm_surface" then "warm surface"
  else if label = "bright_area" then "bright"
  else if label = "surface" then "surface"
  else label

/-- `generateDescription` from `scene-manifest.ts`. -/
def generateDescription (regions : List SemanticRegion) (totalCells : ℕ) :
    String :=
  if regions.length = 0 then
    "The scene contains " ++ toString totalCells ++
      " occupied spatial cells with no clearly identifiable regions."
  else
    let counts := regions.foldl
      (fun (m : List (String × ℕ)) rg =>
        let rl := readableLabel rg.label
        updateAssoc m rl
          ((match m.lookup rl with | some n => n | none => 0) + 1))
      []
    let parts := counts.map (fun e =>
      if e.2 = 1 then "a " ++ e.1 ++ " area"
      else toString e.2 ++ " " ++ e.1 ++ " areas")
    let joined :=
      if parts.length ≤ 2 then String.intercalate " and " parts
      else String.intercalate ", " parts.dropLast ++ ", and " ++
        ((parts.getLast?).getD "")
    "The scene contains approximately " ++ joined ++ " across " ++
      toString totalCells ++ " occupied spatial cells."

/-- `generateManifest` from `scene-manifest.ts`. -/
def generateManifest (grid : SpatialGrid) : SceneManifest :=
  let cellLabels := cellLabelsOf grid
  let regions := buildRegions grid cellLabels
  { description := generateDescription regions grid.cells.length,
    regions := regions,
    grid := grid,
    screenshots := [] }

/-- A cell carries label `L` in the label map (the lookup succeeds and
returns that label). -/
def labelIs (cellLabels : List (GridKey × CellLabel)) (k : GridKey)
    (L : String) : Prop :=
  ∃ cl, cellLabels.lookup k = some cl ∧ cl.label = L

/-- One step of same-label face adjacency: the relation whose
reflexive-transitive closure is the connectivity of the specification
("6-connected and carrying the identical label", within resolution
bounds). -/
def labelStep (grid : SpatialGrid)
    (cellLabels : List (GridKey × CellLabel)) (L : String)
    (k1 k2 : GridKey) : Prop :=
  k2 ∈ neighborKeys k1 ∧ inBounds grid k2 ∧
    labelIs cellLabels k1 L ∧ labelIs cellLabels k2 L

/-- Connectivity through face-adjacent cells all carrying label `L`. -/
def labelConnected (grid : SpatialGrid)
    (cellLabels : List (GridKey × CellLabel)) (L : String)
    (k1 k2 : GridKey) : Prop :=
  Relation.ReflTransGen (labelStep grid cellLabels L) k1 k2

/-- Grid sanity: the stored keys are distinct, every entry's key is the
stored cell's own `gridPos`, and every stored cell sits inside the grid
resolution.  `buildSpatialGrid` establishes all three. -/
def WellFormedGrid (grid : SpatialGrid) : Prop :=
  (grid.cells.map Prod.fst).Nodup ∧
  (∀ e ∈ grid.cells, e.1 = e.2.gridPos) ∧
  (∀ e ∈ grid.cells, inBounds grid e.1)

instance (grid : SpatialGrid) : Decidable (WellFormedGrid grid) :=
  inferInstanceAs (Decidable (_ ∧ _ ∧ _))

/-- Post-state of one `floodFill` call: the component extends the input one
with fresh, labelled, connected keys; the shared visited set grows to
`V0 ∪ component`; the component is closed under same-label adjacency up to
the visited set; and the start key was collected. -/
def FFPost (grid : SpatialGrid) (m : List (GridKey × CellLabel)) (L : String)
    (start : GridKey) (V0 : Finset GridKey) (component : List GridKey)
    (res : Finset GridKey × List GridKey) : Prop :=
  res.2.Nodup ∧
  (∃ new, res.2 = component ++ new) ∧
  res.1 = V0 ∪ res.2.toFinset ∧
  (∀ c ∈ res.2, labelIs m c L ∧ labelConnected grid m L start c) ∧
  (∀ c ∈ res.2, ∀ k, labelStep grid m L c k → k ∈ res.1) ∧
  start ∈ res.2 ∧
  (∀ c ∈ res.2, c ∉ V0)

/-- The ascending `worldCenter.y` ordering that ranks cluster cells for the
floor filter. -/
def yLe (a b : VoxelCell) : Prop :=
  a.worldCenter.y ≤ b.worldCenter.y

instance : DecidableRel yLe :=
  fun a b => inferInstanceAs (Decidable (a.worldCenter.y ≤ b.worldCenter.y))

instance : IsTotal VoxelCell yLe :=
  ⟨fun a b => le_total a.worldCenter.y b.worldCenter.y⟩

instance : IsTrans VoxelCell yLe :=
  ⟨fun _ _ _ hab hbc => le_trans hab hbc⟩

/-- The floor-protection options of `applyFloorProtection` (from the unit
tests of `click-selection.ts`). -/
structure FloorProtectionOptions where
  enableFloorProtection : Bool
  bottomQuantileReject : ℚ
  minProtectedCells : ℕ
deriving DecidableEq, Repr

/-- The result contract of `applyFloorProtection` (from the unit tests of
`click-selection.ts`). -/
structure FloorProtectionResult where
  applied : Bool
  cells : List VoxelCell
  floorRejectedCells : ℕ
  reason : Option String
deriving DecidableEq, Repr

/-- Modelled from the spec: `applyFloorProtection` is imported from
`click-selection.ts` by its unit tests, but the revision of
`click-selection.ts` in the repository does not contain the implementation —
only the tests and the spec describe it.  Per the spec (§4.4 step 3): drop
the member cells whose `worldCenter.y` falls in the bottom
`bottomQuantileReject` fraction by rank of the cluster's own Y-ordering; if
this filtering would shrink the cluster below `minProtectedCells`, discard
the filter and use the unfiltered cluster instead, still reporting the
rejected count; when disabled, return the cells unchanged. -/
def applyFloorProtection (cells : List VoxelCell)
    (opts : FloorProtectionOptions) : FloorProtectionResult :=
  if opts.enableFloorProtection = false then
    ⟨false, cells, 0, some "floorProtectionDisabled"⟩
  else
    let k := (⌊(cells.length : ℚ) * opts.bottomQuantileReject⌋).toNat
    if cells.length - k < opts.minProtectedCells then
      ⟨false, cells, k, some "floorProtectionFallback_smallCluster"⟩
    else
      ⟨true, (List.insertionSort yLe cells).drop k, k, none⟩

end Inkling

namespace Inkling

/-- Example box for boundary / crop witnesses: `[0,0,0] – [10,10,10]`. -/
def box10 : Box3 := ⟨⟨0, 0, 0⟩, ⟨10, 10, 10⟩⟩

/-- A Point Source reporting zero points (one of the two conditions the spec
calls a loud failure). -/
def zeroMesh : SplatMesh := ⟨box10, []⟩

/-- Options with a non-positive resolution axis (the other condition the spec
calls a loud failure). -/
def badOptions : SpatialIndexOptions := ⟨(0, 10, 10), (1 / 10, 1 / 10), "[spatial]"⟩

/-- Shorthand for building concrete `VoxelCell` values in witnesses. -/
def mkCell (k : GridKey) (center bmin bmax : Vec3) (count : ℕ)
    (col : ColorRGB) : VoxelCell :=
  ⟨k, center, ⟨bmin, bmax⟩, count, col, 0, 0, []⟩

/-- A three-cell grid (counts 12, 5, 11) used as the serialization witness. -/
def serGrid : SpatialGrid :=
  { resolution := (5, 5, 5), worldBounds := box10, cellSize := ⟨2, 2, 2⟩,
    cells :=
      [((0, 0, 0), mkCell (0, 0, 0) ⟨1, 1, 1⟩ ⟨0, 0, 0⟩ ⟨2, 2, 2⟩ 12 ⟨1, 0, 0⟩),
       ((1, 0, 0), mkCell (1, 0, 0) ⟨3, 1, 1⟩ ⟨2, 0, 0⟩ ⟨4, 2, 2⟩ 5 ⟨0, 1, 0⟩),
       ((2, 0, 0), mkCell (2, 0, 0) ⟨5, 1, 1⟩ ⟨4, 0, 0⟩ ⟨6, 2, 2⟩ 11 ⟨0, 0, 1⟩)] }

/-- A 100-unit world, resolution 20 (cell size 5), with a single occupied
cell at the far corner `(0,0,0)` — the nearest-cell-search example of the
specification. -/
def cornerGrid : SpatialGrid :=
  { resolution := (20, 20, 20),
    worldBounds := ⟨⟨0, 0, 0⟩, ⟨100, 100, 100⟩⟩,
    cellSize := ⟨5, 5, 5⟩,
    cells := [((0, 0, 0),
      mkCell (0, 0, 0) ⟨5 / 2, 5 / 2, 5 / 2⟩ ⟨0, 0, 0⟩ ⟨5, 5, 5⟩ 30 ⟨1, 1, 1⟩)] }

/-- Left cell of the two-cell X-elongated example cluster. -/
def cellEA : VoxelCell :=
  mkCell (0, 0, 0) ⟨1 / 2, 1 / 2, 1 / 2⟩ ⟨0, 0, 0⟩ ⟨1, 1, 1⟩ 20
    ⟨1 / 2, 1 / 2, 1 / 2⟩

/-- Right cell of the two-cell X-elongated example cluster. -/
def cellEB : VoxelCell :=
  mkCell (1, 0, 0) ⟨3 / 2, 1 / 2, 1 / 2⟩ ⟨1, 0, 0⟩ ⟨2, 1, 1⟩ 20
    ⟨1 / 2, 1 / 2, 1 / 2⟩

/-- A grid holding exactly the two same-colour cells `cellEA, cellEB` along
the X axis: the resulting cluster is X-dominated (size `(2,1,1)`). -/
def elongGrid : SpatialGrid :=
  ⟨(10, 10, 10), box10, ⟨1, 1, 1⟩, [((0, 0, 0), cellEA), ((1, 0, 0), cellEB)]⟩

/-- The selection that `buildLocalSelection` produces on `elongGrid` when
clicked inside `cellEA`, with the default options. -/
def rElong : SelectionResult :=
  { seedCellKey := (0, 0, 0),
    clusterCellKeys := [(0, 0, 0), (1, 0, 0)],
    clusterBounds := some ⟨⟨0, 0, 0⟩, ⟨2, 1, 1⟩⟩,
    clusterCenter := ⟨1, 1 / 2, 1 / 2⟩,
    suggestedShape :=
      { type := SDFShapeType.BOX, position := ⟨1, 1 / 2, 1 / 2⟩,
        rotation := none, radius := none,
        scale := some ⟨57 / 50, 57 / 100, 57 / 100⟩,
        color := none, opacity := none, displace := none },
    diagnostics := { visitedCells := 2, rejectedCells := 0, reason := [] } }

/-- First cell of the three-cell same-colour line. -/
def cellL0 : VoxelCell :=
  mkCell (0, 0, 0) ⟨1 / 2, 1 / 2, 1 / 2⟩ ⟨0, 0, 0⟩ ⟨1, 1, 1⟩ 20
    ⟨1 / 2, 1 / 2, 1 / 2⟩

/-- Second cell of the three-cell same-colour line. -/
def cellL1 : VoxelCell :=
  mkCell (1, 0, 0) ⟨3 / 2, 1 / 2, 1 / 2⟩ ⟨1, 0, 0⟩ ⟨2, 1, 1⟩ 20
    ⟨1 / 2, 1 / 2, 1 / 2⟩

/-- Third cell of the three-cell same-colour line, two steps from the seed. -/
def cellL2 : VoxelCell :=
  mkCell (2, 0, 0) ⟨5 / 2, 1 / 2, 1 / 2⟩ ⟨2, 0, 0⟩ ⟨3, 1, 1⟩ 20
    ⟨1 / 2, 1 / 2, 1 / 2⟩

/-- A grid holding three colour-identical cells in a face-connected line. -/
def lineGrid : SpatialGrid :=
  ⟨(10, 10, 10), box10, ⟨1, 1, 1⟩,
   [((0, 0, 0), cellL0), ((1, 0, 0), cellL1), ((2, 0, 0), cellL2)]⟩

/-- Default options with the depth cap lowered to 1, so the traversal stops
expanding before it can reach the third line cell. -/
def depthOptions : SelectionOptions := ⟨8 / 25, 180, 1, 120, 2, 57 / 50⟩

/-- The selection `buildLocalSelection` produces on `lineGrid` under
`depthOptions` when clicked inside the first cell. -/
def rDepth : SelectionResult :=
  { seedCellKey := (0, 0, 0),
    clusterCellKeys := [(0, 0, 0), (1, 0, 0)],
    clusterBounds := some ⟨⟨0, 0, 0⟩, ⟨2, 1, 1⟩⟩,
    clusterCenter := ⟨1, 1 / 2, 1 / 2⟩,
    suggestedShape :=
      { type := SDFShapeType.BOX, position := ⟨1, 1 / 2, 1 / 2⟩,
        rotation := none, radius := none,
        scale := some ⟨57 / 50, 57 / 100, 57 / 100⟩,
        color := none, opacity := none, displace := none },
    diagnostics := { visitedCells := 2, rejectedCells := 0, reason := [] } }

/-- Default options with the cluster cap lowered to 2, so the traversal
aborts while admitting the second line cell and records the cap. -/
def capOptions : SelectionOptions := ⟨8 / 25, 180, 5, 2, 2, 57 / 50⟩

/-- The selection `buildLocalSelection` produces on `lineGrid` under
`capOptions` when clicked inside the first cell: two cells and a recorded
`"maxClusterCells"` abort. -/
def rCap : SelectionResult :=
  { seedCellKey := (0, 0, 0),
    clusterCellKeys := [(0, 0, 0), (1, 0, 0)],
    clusterBounds := some ⟨⟨0, 0, 0⟩, ⟨2, 1, 1⟩⟩,
    clusterCenter := ⟨1, 1 / 2, 1 / 2⟩,
    suggestedShape :=
      { type := SDFShapeType.BOX, position := ⟨1, 1 / 2, 1 / 2⟩,
        rotation := none, radius := none,
        scale := some ⟨57 / 50, 57 / 100, 57 / 100⟩,
        color := none, opacity := none, displace := none },
    diagnostics :=
      { visitedCells := 2, rejectedCells := 0,
        reason := ["maxClusterCells"] } }

/-- Options with a zero visited cap and a zero cluster minimum: the visited
cap fires at the seed itself and the (non-null) selection is empty. -/
def zeroOptions : SelectionOptions := ⟨8 / 25, 0, 5, 120, 0, 57 / 50⟩

/-- The selection `buildLocalSelection` produces on `lineGrid` under
`zeroOptions`: an empty cluster whose seed key is not a member, with the
visited cap recorded. -/
def rZero : SelectionResult :=
  { seedCellKey := (0, 0, 0),
    clusterCellKeys := [],
    clusterBounds := none,
    clusterCenter := ⟨0, 0, 0⟩,
    suggestedShape :=
      { type := SDFShapeType.SPHERE, position := ⟨0, 0, 0⟩,
        rotation := none, radius := some (1 / 20),
        scale := none, color := none, opacity := none, displace := none },
    diagnostics :=
      { visitedCells := 1, rejectedCells := 0,
        reason := ["maxVisitedCells"] } }

/-- One cell of the vertical test column, centred at height `y`. -/
def floorCell (y : ℚ) : VoxelCell :=
  mkCell (0, 0, 0) ⟨0, y, 0⟩ ⟨0, y - 1 / 2, 0⟩ ⟨1, y + 1 / 2, 1⟩ 25
    ⟨11 / 20, 11 / 20, 11 / 20⟩

/-- A 5-cell vertical column (listed out of height order, since the floor
filter ranks by Y). -/
def fiveColumn : List VoxelCell :=
  [floorCell (5 / 2), floorCell (1 / 2), floorCell (9 / 2),
   floorCell (3 / 2), floorCell (7 / 2)]

theorem safeDiv_nonpos (n d : ℚ) (h : d ≤ 0) : safeDiv n d = 0 := by
  unfold safeDiv
  rw [if_neg (not_lt.mpr h)]

theorem getSize_y_of_pos (b : Box3) (h : 0 < (getSize b).y) :
    (getSize b).y = b.max.y - b.min.y := by
  unfold getSize at h ⊢
  split at h
  · simp at h
  · rename_i hc
    rw [if_neg hc]

theorem normalizeAxis_nonneg (v m s : ℚ) : 0 ≤ normalizeAxis v m s := by
  unfold normalizeAxis clampQ
  split
  · exact le_refl 0
  · exact le_max_left 0 _

theorem normalizeAxis_le_one (v m s : ℚ) : normalizeAxis v m s ≤ 1 := by
  unfold normalizeAxis clampQ
  split
  · exact zero_le_one
  · exact max_le zero_le_one (min_le_left 1 _)

theorem normalizedToIndex_eq_clamp (n : ℚ) (r : ℤ) (h0 : 0 ≤ n) (h1 : n ≤ 1)
    (hr : 1 ≤ r) :
    normalizedToIndex n r = max 0 (min (r - 1) ⌊n * (r : ℚ)⌋) := by
  unfold normalizedToIndex
  rcases eq_or_lt_of_le hr with heq | hlt
  · rw [if_pos (le_of_eq heq.symm), ← heq]
    have hf : (0 : ℤ) ≤ ⌊n * ((1 : ℤ) : ℚ)⌋ := by
      apply Int.floor_nonneg.mpr
      simpa using h0
    omega
  · rw [if_neg (by omega)]
    by_cases hge : 1 ≤ n
    · have hn : n = 1 := le_antisymm h1 hge
      subst hn
      rw [if_pos le_rfl]
      have hf : ⌊(1 : ℚ) * (r : ℚ)⌋ = r := by
        rw [one_mul, Int.floor_intCast]
      rw [hf]
      omega
    · rw [if_neg hge]

theorem normalizedToIndex_bounds (n : ℚ) (r : ℤ) (hr : 1 ≤ r) :
    0 ≤ normalizedToIndex n r ∧ normalizedToIndex n r ≤ r - 1 := by
  unfold normalizedToIndex
  by_cases hle : r ≤ 1
  · rw [if_pos hle]
    omega
  · rw [if_neg hle]
    by_cases hge : 1 ≤ n
    · rw [if_pos hge]
      omega
    · rw [if_neg hge]
      constructor
      · exact le_max_left 0 _
      · exact max_le (by omega) (min_le_left _ _)

/-- Claim C5: `computeCroppedBounds` on bounds with a positive (finite) height
shrinks only the Y axis, by `height * cropBottom` at the bottom and
`height * cropTop` at the top, with `usedFallback = false`; when the height is
non-positive (non-finite heights cannot occur over ℚ) or the crop fractions sum
to at least 1 (so the shrunken range collapses), it returns the uncropped
bounds unchanged with `usedFallback = true`. -/
theorem computeCroppedBounds_spec (rawBounds : Box3) (cb ct : ℚ) :
    (0 < (getSize rawBounds).y → cb + ct < 1 →
      computeCroppedBounds rawBounds (cb, ct) =
        ⟨⟨{ rawBounds.min with
              y := rawBounds.min.y + (getSize rawBounds).y * cb },
          { rawBounds.max with
              y := rawBounds.max.y - (getSize rawBounds).y * ct }⟩, false⟩) ∧
    (0 < (getSize rawBounds).y → 1 ≤ cb + ct →
      computeCroppedBounds rawBounds (cb, ct) = ⟨rawBounds, true⟩) ∧
    ((getSize rawBounds).y ≤ 0 →
      computeCroppedBounds rawBounds (cb, ct) = ⟨rawBounds, true⟩) := by
  refine ⟨?_, ?_, ?_⟩
  · intro hpos hlt
    have hy := getSize_y_of_pos rawBounds hpos
    unfold computeCroppedBounds
    rw [if_neg (by linarith)]
    rw [if_neg ?side]
    case side =>
      rw [not_not, hy]
      nlinarith [hpos, hlt]
  · intro hpos hge
    have hy := getSize_y_of_pos rawBounds hpos
    unfold computeCroppedBounds
    rw [if_neg (by linarith)]
    rw [if_pos ?side]
    case side =>
      rw [not_lt, hy]
      nlinarith [hpos, hge]
  · intro hnp
    unfold computeCroppedBounds
    rw [if_pos hnp]

theorem computeCroppedBounds_spec_witness :
    0 < (getSize box10).y ∧ (1 / 10 : ℚ) + 1 / 10 < 1 ∧
    computeCroppedBounds box10 (1 / 10, 1 / 10) =
      ⟨⟨⟨0, 1, 0⟩, ⟨10, 9, 10⟩⟩, false⟩ := by
  refine ⟨by with_unfolding_all decide, by norm_num, ?_⟩
  have h := (computeCroppedBounds_spec box10 (1 / 10) (1 / 10)).1
    (by with_unfolding_all decide) (by norm_num)
  rw [h]
  with_unfolding_all decide

/-- Claim C7: `worldPosToGridCoord` maps every point contained in the grid
bounds to per-axis indices `floor(normalized * resolution)` clamped into
`[0, resolution - 1]` (for positive per-axis resolutions); in particular the
max-boundary point never falls out of range. -/
theorem worldPosToGridCoord_contained (p : Vec3) (b : Box3) (r1 r2 r3 : ℤ)
    (c : Bool) (hcont : containsPoint b p = true)
    (h1 : 1 ≤ r1) (h2 : 1 ≤ r2) (h3 : 1 ≤ r3) :
    ∃ i1 i2 i3 : ℤ,
      worldPosToGridCoord p b (r1, r2, r3) c = some (i1, i2, i3) ∧
      i1 = max 0 (min (r1 - 1)
        ⌊normalizeAxis p.x b.min.x (getSize b).x * (r1 : ℚ)⌋) ∧
      i2 = max 0 (min (r2 - 1)
        ⌊normalizeAxis p.y b.min.y (getSize b).y * (r2 : ℚ)⌋) ∧
      i3 = max 0 (min (r3 - 1)
        ⌊normalizeAxis p.z b.min.z (getSize b).z * (r3 : ℚ)⌋) ∧
      0 ≤ i1 ∧ i1 ≤ r1 - 1 ∧ 0 ≤ i2 ∧ i2 ≤ r2 - 1 ∧ 0 ≤ i3 ∧ i3 ≤ r3 - 1 := by
  refine ⟨normalizedToIndex (normalizeAxis p.x b.min.x (getSize b).x) r1,
          normalizedToIndex (normalizeAxis p.y b.min.y (getSize b).y) r2,
          normalizedToIndex (normalizeAxis p.z b.min.z (getSize b).z) r3,
          ?_, ?_, ?_, ?_, ?_, ?_, ?_, ?_, ?_, ?_⟩
  · unfold worldPosToGridCoord
    rw [if_neg (fun h => h.1 hcont)]
  · exact normalizedToIndex_eq_clamp _ r1 (normalizeAxis_nonneg _ _ _)
      (normalizeAxis_le_one _ _ _) h1
  · exact normalizedToIndex_eq_clamp _ r2 (normalizeAxis_nonneg _ _ _)
      (normalizeAxis_le_one _ _ _) h2
  · exact normalizedToIndex_eq_clamp _ r3 (normalizeAxis_nonneg _ _ _)
      (normalizeAxis_le_one _ _ _) h3
  · exact (normalizedToIndex_bounds _ r1 h1).1
  · exact (normalizedToIndex_bounds _ r1 h1).2
  · exact (normalizedToIndex_bounds _ r2 h2).1
  · exact (normalizedToIndex_bounds _ r2 h2).2
  · exact (normalizedToIndex_bounds _ r3 h3).1
  · exact (normalizedToIndex_bounds _ r3 h3).2

/-- Claim C2, counterexample: on an input that is simultaneously in both of
the claimed loud-failure classes (a Point Source reporting zero points and a
grid resolution with a non-positive X axis), `buildSpatialGrid` does not raise:
it returns an ordinary grid value with an empty cell map and a zero cell size
on the non-positive axis.  (The source of `buildSpatialGrid` contains no throw
statement on any path, which is why its embedding is a total function.) -/
theorem buildSpatialGrid_returns_on_claimed_loud_inputs :
    buildSpatialGrid zeroMesh badOptions =
      { resolution := (0, 10, 10), worldBounds := ⟨⟨0, 1, 0⟩, ⟨10, 9, 10⟩⟩,
        cellSize := ⟨0, 4 / 5, 1⟩, cells := [] } := by
  with_unfolding_all decide

/-- Claim C2 (amended): `buildSpatialGrid` never raises.  A zero-point source
yields a grid with an empty cell map, a non-positive resolution axis is
absorbed by `safeDiv` into a zero cell size on that axis, and degenerate
bounds return the explicit empty grid — all without exceptions. -/
theorem buildSpatialGrid_total_spec (m : SplatMesh) (o : SpatialIndexOptions) :
    (m.splats = [] → (buildSpatialGrid m o).cells = []) ∧
    (o.resolution.1 ≤ 0 → (buildSpatialGrid m o).cellSize.x = 0) ∧
    (o.resolution.2.1 ≤ 0 → (buildSpatialGrid m o).cellSize.y = 0) ∧
    (o.resolution.2.2 ≤ 0 → (buildSpatialGrid m o).cellSize.z = 0) ∧
    (isDegenerateBounds m.boundingBox = true →
      buildSpatialGrid m o =
        ⟨o.resolution, m.boundingBox, ⟨0, 0, 0⟩, []⟩) := by
  by_cases hdeg : isDegenerateBounds m.boundingBox = true
  · refine ⟨?_, ?_, ?_, ?_, ?_⟩ <;>
      intro h <;>
      simp only [buildSpatialGrid, if_pos hdeg]
  · refine ⟨?_, ?_, ?_, ?_, ?_⟩
    · intro hs
      simp only [buildSpatialGrid, if_neg hdeg, hs]
      rfl
    · intro hr
      simp only [buildSpatialGrid, if_neg hdeg, computeNominalCellSize]
      exact safeDiv_nonpos _ _ (by exact_mod_cast hr)
    · intro hr
      simp only [buildSpatialGrid, if_neg hdeg, computeNominalCellSize]
      exact safeDiv_nonpos _ _ (by exact_mod_cast hr)
    · intro hr
      simp only [buildSpatialGrid, if_neg hdeg, computeNominalCellSize]
      exact safeDiv_nonpos _ _ (by exact_mod_cast hr)
    · intro h
      exact absurd h hdeg

theorem buildSpatialGrid_total_spec_witness :
    zeroMesh.splats = [] ∧ (0 : ℤ) ≤ 0 ∧
    (buildSpatialGrid zeroMesh badOptions).cells = [] ∧
    (buildSpatialGrid zeroMesh badOptions).cellSize.x = 0 :=
  ⟨rfl, le_refl 0,
   (buildSpatialGrid_total_spec zeroMesh badOptions).1 rfl,
   (buildSpatialGrid_total_spec zeroMesh badOptions).2.1 (le_refl 0)⟩

theorem worldPosToGridCoord_contained_witness :
    containsPoint box10 ⟨10, 10, 10⟩ = true ∧
    worldPosToGridCoord ⟨10, 10, 10⟩ box10 (10, 10, 10) false =
      some (9, 9, 9) := by
  refine ⟨by with_unfolding_all decide, ?_⟩
  obtain ⟨i1, i2, i3, heq, e1, e2, e3, -⟩ :=
    worldPosToGridCoord_contained ⟨10, 10, 10⟩ box10 10 10 10 false
      (by with_unfolding_all decide) (by decide) (by decide) (by decide)
  rw [heq, e1, e2, e3]
  with_unfolding_all decide

theorem orderedInsert_reindex (f : VoxelCell → List ℕ)
    (a : GridKey × VoxelCell) (l : List (GridKey × VoxelCell)) :
    List.orderedInsert countGe (reindexEntry f a) (l.map (reindexEntry f)) =
      (List.orderedInsert countGe a l).map (reindexEntry f) := by
  induction l with
  | nil => rfl
  | cons b t ih =>
    simp only [List.map_cons, List.orderedInsert]
    split_ifs with h1 h2 h2
    · rfl
    · exact absurd h1 h2
    · exact absurd h2 h1
    · simp only [List.map_cons, ih]

theorem insertionSort_reindex (f : VoxelCell → List ℕ)
    (l : List (GridKey × VoxelCell)) :
    List.insertionSort countGe (l.map (reindexEntry f)) =
      (List.insertionSort countGe l).map (reindexEntry f) := by
  induction l with
  | nil => rfl
  | cons a t ih =>
    simp only [List.map_cons, List.insertionSort, ih, orderedInsert_reindex]

/-- Claim C9: the serialization contains exactly the occupied cells with point
count at or above `minSplats`; when over the `maxCells` cap it keeps exactly
`maxCells` cells forming a highest-count selection of the qualifying cells;
and the per-cell `splatIndices` list is never read, hence never present. -/
theorem serializeSpatialGridForLLM_spec (grid : SpatialGrid)
    (maxCells minSplats : ℕ) :
    (¬ maxCells <
        (grid.cells.filter (fun e => decide (minSplats ≤ e.2.splatCount))).length →
      (serializeSpatialGridForLLM grid maxCells minSplats).cells =
        (grid.cells.filter
          (fun e => decide (minSplats ≤ e.2.splatCount))).map
          (fun e => serializeCellEntry e.2)) ∧
    (maxCells <
        (grid.cells.filter (fun e => decide (minSplats ≤ e.2.splatCount))).length →
      ∃ kept dropped : List (GridKey × VoxelCell),
        (kept ++ dropped).Perm
          (grid.cells.filter (fun e => decide (minSplats ≤ e.2.splatCount))) ∧
        kept.length = maxCells ∧
        (∀ a ∈ kept, ∀ b ∈ dropped, b.2.splatCount ≤ a.2.splatCount) ∧
        (serializeSpatialGridForLLM grid maxCells minSplats).cells =
          kept.map (fun e => serializeCellEntry e.2)) ∧
    (∀ fidx : VoxelCell → List ℕ,
      serializeSpatialGridForLLM (setSplatIndices grid fidx) maxCells minSplats =
        serializeSpatialGridForLLM grid maxCells minSplats) := by
  refine ⟨?_, ?_, ?_⟩
  · intro h
    simp only [serializeSpatialGridForLLM]
    rw [if_neg h]
  · intro h
    refine ⟨(List.insertionSort countGe
        (grid.cells.filter (fun e => decide (minSplats ≤ e.2.splatCount)))).take
        maxCells,
      (List.insertionSort countGe
        (grid.cells.filter (fun e => decide (minSplats ≤ e.2.splatCount)))).drop
        maxCells, ?_, ?_, ?_, ?_⟩
    · rw [List.take_append_drop]
      exact List.perm_insertionSort countGe _
    · have hlen := (List.perm_insertionSort countGe
        (grid.cells.filter (fun e => decide (minSplats ≤ e.2.splatCount)))).length_eq
      rw [List.length_take]
      omega
    · have hs := List.sorted_insertionSort countGe
        (grid.cells.filter (fun e => decide (minSplats ≤ e.2.splatCount)))
      rw [← List.take_append_drop maxCells (List.insertionSort countGe
        (grid.cells.filter (fun e => decide (minSplats ≤ e.2.splatCount))))] at hs
      exact fun a ha b hb => (List.pairwise_append.mp hs).2.2 a ha b hb
    · simp only [serializeSpatialGridForLLM]
      rw [if_pos h]
  · intro fidx
    have hfm : (grid.cells.map (reindexEntry fidx)).filter
        (fun e => decide (minSplats ≤ e.2.splatCount)) =
        (grid.cells.filter (fun e => decide (minSplats ≤ e.2.splatCount))).map
          (reindexEntry fidx) := by
      induction grid.cells with
      | nil => rfl
      | cons a t ih =>
        simp only [List.map_cons, List.filter_cons]
        by_cases hc : minSplats ≤ a.2.splatCount
        · rw [if_pos (by exact decide_eq_true hc),
            if_pos (by exact decide_eq_true hc), List.map_cons, ih]
        · rw [if_neg (by exact fun hd => hc (of_decide_eq_true hd)),
            if_neg (by exact fun hd => hc (of_decide_eq_true hd)), ih]
    simp only [serializeSpatialGridForLLM, setSplatIndices, hfm,
      List.length_map, insertionSort_reindex, ← List.map_take,
      ← apply_ite (List.map (reindexEntry fidx)), List.map_map]
    rfl

/-- Claim C4 (amended): for every non-null `SelectionResult`, the suggested
shape is a SPHERE sized from the padded average half-extent when the cluster
bounds' max-to-min axis ratio (with the min clamped to at least 1/1000) is
below 1.6; otherwise an ELLIPSOID with the padded per-axis half-extents when
the Y axis exceeds 1.8 times both the X and the Z axis; otherwise a BOX with
the padded half-extents.  (The source tests Y-dominance only, not dominance
of an arbitrary axis.) -/
theorem buildLocalSelection_shape_spec (grid : SpatialGrid) (click : Vec3)
    (opts : SelectionOptions) (r : SelectionResult)
    (h : buildLocalSelection grid click opts = some r) :
    (max (eboxGetSize r.clusterBounds).x
        (max (eboxGetSize r.clusterBounds).y (eboxGetSize r.clusterBounds).z) /
      max (min (eboxGetSize r.clusterBounds).x
        (min (eboxGetSize r.clusterBounds).y (eboxGetSize r.clusterBounds).z))
        (1 / 1000) < 8 / 5 →
      r.suggestedShape =
        { type := SDFShapeType.SPHERE, position := r.clusterCenter,
          rotation := none,
          radius := some (max (1 / 20)
            ((((eboxGetSize r.clusterBounds).x + (eboxGetSize r.clusterBounds).y +
               (eboxGetSize r.clusterBounds).z) / 6) * opts.boxPadding)),
          scale := none, color := none, opacity := none, displace := none }) ∧
    (¬ (max (eboxGetSize r.clusterBounds).x
        (max (eboxGetSize r.clusterBounds).y (eboxGetSize r.clusterBounds).z) /
      max (min (eboxGetSize r.clusterBounds).x
        (min (eboxGetSize r.clusterBounds).y (eboxGetSize r.clusterBounds).z))
        (1 / 1000) < 8 / 5) →
      ((eboxGetSize r.clusterBounds).x * (9 / 5) < (eboxGetSize r.clusterBounds).y ∧
       (eboxGetSize r.clusterBounds).z * (9 / 5) < (eboxGetSize r.clusterBounds).y →
        r.suggestedShape =
          { type := SDFShapeType.ELLIPSOID, position := r.clusterCenter,
            rotation := none, radius := none,
            scale := some
              ⟨max (1 / 20)
                ((eboxGetSize r.clusterBounds).x * (1 / 2) * opts.boxPadding),
               max (1 / 20)
                ((eboxGetSize r.clusterBounds).y * (1 / 2) * opts.boxPadding),
               max (1 / 20)
                ((eboxGetSize r.clusterBounds).z * (1 / 2) * opts.boxPadding)⟩,
            color := none, opacity := none, displace := none }) ∧
      (¬ ((eboxGetSize r.clusterBounds).x * (9 / 5) < (eboxGetSize r.clusterBounds).y ∧
          (eboxGetSize r.clusterBounds).z * (9 / 5) < (eboxGetSize r.clusterBounds).y) →
        r.suggestedShape =
          { type := SDFShapeType.BOX, position := r.clusterCenter,
            rotation := none, radius := none,
            scale := some
              ⟨max (1 / 20)
                ((eboxGetSize r.clusterBounds).x * (1 / 2) * opts.boxPadding),
               max (1 / 20)
                ((eboxGetSize r.clusterBounds).y * (1 / 2) * opts.boxPadding),
               max (1 / 20)
                ((eboxGetSize r.clusterBounds).z * (1 / 2) * opts.boxPadding)⟩,
            color := none, opacity := none, displace := none })) := by
  unfold buildLocalSelection at h
  cases hseed : getCellAtWorldPos grid click with
  | none =>
    rw [hseed] at h
    exact absurd h (by simp)
  | some seedCell =>
    rw [hseed] at h
    dsimp only at h
    split at h
    · exact absurd h (by simp)
    · have hr := Option.some.inj h
      subst hr
      dsimp only
      refine ⟨?_, ?_⟩
      · intro h1
        rw [if_pos h1]
      · intro h1
        refine ⟨?_, ?_⟩
        · intro h2
          rw [if_neg h1, if_pos h2]
        · intro h2
          rw [if_neg h1, if_neg h2]

theorem bfsLoop_nil (grid : SpatialGrid) (cfg : SelectionOptions)
    (seedKey : GridKey) (seedColor : ColorRGB) (u : Finset GridKey)
    (hu : ∀ k v, grid.cells.lookup k = some v → v.gridPos ∈ u)
    (hq : ∀ i ∈ ([] : List QueueItem), i.key ∈ u) (visited : Finset GridKey)
    (accepted : List (GridKey × VoxelCell)) (rejected : ℕ)
    (reasons : List String) :
    bfsLoop grid cfg seedKey seedColor u hu [] hq visited accepted rejected
      reasons = ⟨visited, accepted, rejected, reasons⟩ := by
  rw [bfsLoop]

theorem elong_eval :
    buildLocalSelection elongGrid ⟨1 / 2, 1 / 2, 1 / 2⟩
      DEFAULT_SELECTION_OPTIONS = some rElong := by
  have step2 : ∀ (hu : ∀ k v, elongGrid.cells.lookup k = some v →
        v.gridPos ∈ gridPosUniverse elongGrid cellEA.gridPos)
      (hq : ∀ i ∈ [(⟨(1, 0, 0), cellEB, 1⟩ : QueueItem)],
        i.key ∈ gridPosUniverse elongGrid cellEA.gridPos),
      bfsLoop elongGrid DEFAULT_SELECTION_OPTIONS cellEA.gridPos
        cellEA.avgColor (gridPosUniverse elongGrid cellEA.gridPos) hu
        [⟨(1, 0, 0), cellEB, 1⟩] hq (insert (0, 0, 0) ∅)
        [((0, 0, 0), cellEA)] 0 [] =
        ⟨{(1, 0, 0), (0, 0, 0)},
         [((0, 0, 0), cellEA), ((1, 0, 0), cellEB)], 0, []⟩ := by
    intro hu hq
    rw [bfsLoop]
    rw [dif_neg (by with_unfolding_all decide)]
    rw [if_neg (by with_unfolding_all decide)]
    rw [if_neg (by with_unfolding_all decide)]
    rw [if_neg (by with_unfolding_all decide)]
    rw [if_neg (by with_unfolding_all decide)]
    exact bfsLoop_nil _ _ _ _ _ _ _ _ _ _ _
  have step1 : ∀ (hu : ∀ k v, elongGrid.cells.lookup k = some v →
        v.gridPos ∈ gridPosUniverse elongGrid cellEA.gridPos)
      (hq : ∀ i ∈ [(⟨cellEA.gridPos, cellEA, 0⟩ : QueueItem)],
        i.key ∈ gridPosUniverse elongGrid cellEA.gridPos),
      bfsLoop elongGrid DEFAULT_SELECTION_OPTIONS cellEA.gridPos
        cellEA.avgColor (gridPosUniverse elongGrid cellEA.gridPos) hu
        [⟨cellEA.gridPos, cellEA, 0⟩] hq ∅ [] 0 [] =
        ⟨{(1, 0, 0), (0, 0, 0)},
         [((0, 0, 0), cellEA), ((1, 0, 0), cellEB)], 0, []⟩ := by
    intro hu hq
    rw [bfsLoop]
    rw [dif_neg (by with_unfolding_all decide)]
    rw [if_neg (by with_unfolding_all decide)]
    rw [if_neg (by with_unfolding_all decide)]
    rw [if_neg (by with_unfolding_all decide)]
    rw [if_neg (by with_unfolding_all decide)]
    exact step2 _ _
  have hseed : getCellAtWorldPos elongGrid ⟨1 / 2, 1 / 2, 1 / 2⟩ =
      some cellEA := by
    with_unfolding_all decide
  unfold buildLocalSelection
  rw [hseed]
  dsimp only
  rw [step1 _ _]
  with_unfolding_all decide

theorem updateAssoc_mem {α β : Type} [DecidableEq α] (l : List (α × β))
    (k : α) (v : β) (e : α × β) (he : e ∈ updateAssoc l k v) :
    e = (k, v) ∨ e ∈ l := by
  induction l with
  | nil => simpa [updateAssoc] using he
  | cons a t ih =>
    obtain ⟨k0, v0⟩ := a
    simp only [updateAssoc] at he
    split at he
    · rcases List.mem_cons.mp he with rfl | hm
      · exact Or.inl rfl
      · exact Or.inr (List.mem_cons_of_mem _ hm)
    · rcases List.mem_cons.mp he with rfl | hm
      · exact Or.inr (List.mem_cons_self _ _)
      · rcases ih hm with h | h
        · exact Or.inl h
        · exact Or.inr (List.mem_cons_of_mem _ h)

theorem updateAssoc_length {α β : Type} [DecidableEq α] (l : List (α × β))
    (k : α) (v : β) : (updateAssoc l k v).length ≤ l.length + 1 := by
  induction l with
  | nil => simp [updateAssoc]
  | cons a t ih =>
    obtain ⟨k0, v0⟩ := a
    simp only [updateAssoc]
    split
    · simp
    · simpa using Nat.succ_le_succ ih

theorem updateAssoc_length_pos {α β : Type} [DecidableEq α]
    (l : List (α × β)) (k : α) (v : β) : 0 < (updateAssoc l k v).length := by
  cases l with
  | nil => simp [updateAssoc]
  | cons a t =>
    obtain ⟨k0, v0⟩ := a
    simp only [updateAssoc]
    split <;> simp

theorem updateAssoc_key_mono {α β : Type} [DecidableEq α]
    (l : List (α × β)) (k : α) (v : β) (k0 : α)
    (h : k0 ∈ l.map Prod.fst) :
    k0 ∈ (updateAssoc l k v).map Prod.fst := by
  induction l with
  | nil => simp at h
  | cons a t ih =>
    obtain ⟨k1, v1⟩ := a
    simp only [updateAssoc]
    split
    · rename_i hk
      rcases List.mem_cons.mp h with rfl | hm
      · subst hk
        exact List.mem_cons_self _ _
      · exact List.mem_cons_of_mem _ hm
    · rcases List.mem_cons.mp h with rfl | hm
      · exact List.mem_cons_self _ _
      · exact List.mem_cons_of_mem _ (ih hm)

/-- The loop invariants of the breadth-first traversal of
`buildLocalSelection`: members other than the seed passed the colour gate,
only the visited-cap and cluster-cap names are ever recorded as reasons, the
cluster never exceeds `max maxClusterCells 1` entries, the visited set never
exceeds `maxVisitedCells + 1` keys, and accepted keys are never removed. -/
theorem bfsLoop_invariants (grid : SpatialGrid) (cfg : SelectionOptions)
    (seedKey : GridKey) (seedColor : ColorRGB) (u : Finset GridKey)
    (hu : ∀ k v, grid.cells.lookup k = some v → v.gridPos ∈ u)
    (queue : List QueueItem) (hq : ∀ i ∈ queue, i.key ∈ u)
    (visited : Finset GridKey) (accepted : List (GridKey × VoxelCell))
    (rejected : ℕ) (reasons : List String)
    (hacc : ∀ e ∈ accepted, e.1 = seedKey ∨
      colorPassB e.2.avgColor seedColor cfg.colorDistanceThreshold = true)
    (hrs : ∀ s ∈ reasons, s = "maxVisitedCells" ∨ s = "maxClusterCells")
    (hlen : accepted.length < cfg.maxClusterCells ∨ accepted.length = 0)
    (hcard : visited.card ≤ cfg.maxVisitedCells) :
    (∀ e ∈ (bfsLoop grid cfg seedKey seedColor u hu queue hq visited accepted
        rejected reasons).accepted,
      e.1 = seedKey ∨
        colorPassB e.2.avgColor seedColor cfg.colorDistanceThreshold = true) ∧
    (∀ s ∈ (bfsLoop grid cfg seedKey seedColor u hu queue hq visited accepted
        rejected reasons).reasons,
      s = "maxVisitedCells" ∨ s = "maxClusterCells") ∧
    (bfsLoop grid cfg seedKey seedColor u hu queue hq visited accepted
      rejected reasons).accepted.length ≤ max cfg.maxClusterCells 1 ∧
    (bfsLoop grid cfg seedKey seedColor u hu queue hq visited accepted
      rejected reasons).visited.card ≤ cfg.maxVisitedCells + 1 ∧
    (∀ k ∈ accepted.map Prod.fst,
      k ∈ (bfsLoop grid cfg seedKey seedColor u hu queue hq visited accepted
        rejected reasons).accepted.map Prod.fst) := by
  induction queue, hq, visited, accepted, rejected, reasons
    using bfsLoop.induct grid cfg seedKey seedColor u hu with
  | case1 hq visited accepted rejected reasons =>
    rw [bfsLoop_nil]
    dsimp only
    exact ⟨hacc, hrs, by omega, by omega, fun k hk => hk⟩
  | case2 current rest hq visited accepted rejected reasons hv hq2 ih =>
    rw [bfsLoop]
    rw [dif_pos hv]
    exact ih hacc hrs hlen hcard
  | case3 current rest hq visited accepted rejected reasons hv hbreak hq2 =>
    rw [bfsLoop]
    rw [dif_neg hv, if_pos hbreak]
    dsimp only
    refine ⟨hacc, ?_, by omega, ?_, fun k hk => hk⟩
    · intro s hs
      rcases List.mem_append.mp hs with hs | hs
      · exact hrs s hs
      · left
        simpa using hs
    · have := Finset.card_insert_le current.key visited
      omega
  | case4 current rest hq visited accepted rejected reasons hv hnb hrej hq2
      ih =>
    rw [bfsLoop]
    rw [dif_neg hv, if_neg hnb, if_pos hrej]
    refine ih hacc hrs hlen ?_
    omega
  | case5 current rest hq visited accepted rejected reasons hv hnb hgate
      hbreak hq2 =>
    rw [bfsLoop]
    rw [dif_neg hv, if_neg hnb, if_neg hgate, if_pos hbreak]
    dsimp only
    have hgate2 : current.key = seedKey ∨
        colorPassB current.cell.avgColor seedColor
          cfg.colorDistanceThreshold = true := by
      by_cases h1 : current.key = seedKey
      · exact Or.inl h1
      · by_cases h2 : colorPassB current.cell.avgColor seedColor
            cfg.colorDistanceThreshold = true
        · exact Or.inr h2
        · exact absurd ⟨h1, h2⟩ hgate
    refine ⟨?_, ?_, ?_, ?_, ?_⟩
    · intro e he
      rcases updateAssoc_mem accepted current.key current.cell e he with
        rfl | he2
      · exact hgate2
      · exact hacc e he2
    · intro s hs
      rcases List.mem_append.mp hs with hs | hs
      · exact hrs s hs
      · right
        simpa using hs
    · have hle := updateAssoc_length accepted current.key current.cell
      rcases hlen with h1 | h1
      · omega
      · rw [h1] at hle
        omega
    · have := Finset.card_insert_le current.key visited
      omega
    · intro k hk
      exact updateAssoc_key_mono accepted current.key current.cell k hk
  | case6 current rest hq visited accepted rejected reasons hv hnb hgate
      hnobreak hdepth hq2 ih =>
    rw [bfsLoop]
    rw [dif_neg hv, if_neg hnb, if_neg hgate, if_neg hnobreak, if_pos hdepth]
    have hgate2 : current.key = seedKey ∨
        colorPassB current.cell.avgColor seedColor
          cfg.colorDistanceThreshold = true := by
      by_cases h1 : current.key = seedKey
      · exact Or.inl h1
      · by_cases h2 : colorPassB current.cell.avgColor seedColor
            cfg.colorDistanceThreshold = true
        · exact Or.inr h2
        · exact absurd ⟨h1, h2⟩ hgate
    have H := ih ?hacc2 hrs ?hlen2 ?hcard2
    case hacc2 =>
      intro e he
      rcases updateAssoc_mem accepted current.key current.cell e he with
        rfl | he2
      · exact hgate2
      · exact hacc e he2
    case hlen2 =>
      left
      omega
    case hcard2 =>
      omega
    refine ⟨H.1, H.2.1, H.2.2.1, H.2.2.2.1, ?_⟩
    intro k hk
    exact H.2.2.2.2 k
      (updateAssoc_key_mono accepted current.key current.cell k hk)
  | case7 current rest hq visited accepted rejected reasons hv hnb hgate
      hnobreak hdepth hq2 ih =>
    rw [bfsLoop]
    rw [dif_neg hv, if_neg hnb, if_neg hgate, if_neg hnobreak, if_neg hdepth]
    have hgate2 : current.key = seedKey ∨
        colorPassB current.cell.avgColor seedColor
          cfg.colorDistanceThreshold = true := by
      by_cases h1 : current.key = seedKey
      · exact Or.inl h1
      · by_cases h2 : colorPassB current.cell.avgColor seedColor
            cfg.colorDistanceThreshold = true
        · exact Or.inr h2
        · exact absurd ⟨h1, h2⟩ hgate
    have H := ih ?hacc2 hrs ?hlen2 ?hcard2
    case hacc2 =>
      intro e he
      rcases updateAssoc_mem accepted current.key current.cell e he with
        rfl | he2
      · exact hgate2
      · exact hacc e he2
    case hlen2 =>
      left
      omega
    case hcard2 =>
      omega
    refine ⟨H.1, H.2.1, H.2.2.1, H.2.2.2.1, ?_⟩
    intro k hk
    exact H.2.2.2.2 k
      (updateAssoc_key_mono accepted current.key current.cell k hk)

theorem bfsLoop_reason_iff (grid : SpatialGrid) (cfg : SelectionOptions)
    (seedKey : GridKey) (seedColor : ColorRGB) (u : Finset GridKey)
    (hu : ∀ k v, grid.cells.lookup k = some v → v.gridPos ∈ u)
    (queue : List QueueItem) (hq : ∀ i ∈ queue, i.key ∈ u)
    (visited : Finset GridKey) (accepted : List (GridKey × VoxelCell))
    (rejected : ℕ) (reasons : List String)
    (hlen : accepted.length < cfg.maxClusterCells ∨ accepted.length = 0)
    (hcard : visited.card ≤ cfg.maxVisitedCells)
    (hr0 : reasons = []) :
    ("maxVisitedCells" ∈ (bfsLoop grid cfg seedKey seedColor u hu queue hq
        visited accepted rejected reasons).reasons ↔
      cfg.maxVisitedCells < (bfsLoop grid cfg seedKey seedColor u hu queue
        hq visited accepted rejected reasons).visited.card) ∧
    ("maxClusterCells" ∈ (bfsLoop grid cfg seedKey seedColor u hu queue hq
        visited accepted rejected reasons).reasons ↔
      (cfg.maxClusterCells ≤ (bfsLoop grid cfg seedKey seedColor u hu queue
        hq visited accepted rejected reasons).accepted.length ∧
       (bfsLoop grid cfg seedKey seedColor u hu queue hq visited accepted
        rejected reasons).accepted.length ≠ 0)) := by
  induction queue, hq, visited, accepted, rejected, reasons
    using bfsLoop.induct grid cfg seedKey seedColor u hu with
  | case1 hq visited accepted rejected reasons =>
    rw [bfsLoop_nil]
    subst hr0
    dsimp only
    constructor
    · constructor
      · intro hmem
        exact absurd hmem (List.not_mem_nil _)
      · intro hlt
        exact ((by omega : False)).elim
    · constructor
      · intro hmem
        exact absurd hmem (List.not_mem_nil _)
      · intro hcl
        exact ((by omega : False)).elim
  | case2 current rest hq visited accepted rejected reasons hv hq2 ih =>
    rw [bfsLoop, dif_pos hv]
    exact ih hlen hcard hr0
  | case3 current rest hq visited accepted rejected reasons hv hbreak hq2 =>
    rw [bfsLoop, dif_neg hv, if_pos hbreak]
    subst hr0
    dsimp only
    constructor
    · constructor
      · intro _
        exact hbreak
      · intro _
        simp
    · constructor
      · intro hmem
        simp at hmem
      · intro hcl
        exact ((by omega : False)).elim
  | case4 current rest hq visited accepted rejected reasons hv hnb hrej hq2
      ih =>
    rw [bfsLoop, dif_neg hv, if_neg hnb, if_pos hrej]
    refine ih hlen ?_ hr0
    omega
  | case5 current rest hq visited accepted rejected reasons hv hnb hgate
      hbreak hq2 =>
    rw [bfsLoop, dif_neg hv, if_neg hnb, if_neg hgate, if_pos hbreak]
    subst hr0
    dsimp only
    constructor
    · constructor
      · intro hmem
        simp at hmem
      · intro hlt
        exact absurd hlt hnb
    · constructor
      · intro _
        refine ⟨hbreak, ?_⟩
        have := updateAssoc_length_pos accepted current.key current.cell
        omega
      · intro _
        simp
  | case6 current rest hq visited accepted rejected reasons hv hnb hgate
      hnobreak hdepth hq2 ih =>
    rw [bfsLoop, dif_neg hv, if_neg hnb, if_neg hgate, if_neg hnobreak,
      if_pos hdepth]
    refine ih ?_ ?_ hr0
    · left
      omega
    · omega
  | case7 current rest hq visited accepted rejected reasons hv hnb hgate
      hnobreak hdepth hq2 ih =>
    rw [bfsLoop, dif_neg hv, if_neg hnb, if_neg hgate, if_neg hnobreak,
      if_neg hdepth]
    refine ih ?_ ?_ hr0
    · left
      omega
    · omega

theorem lookup_mem_universe (grid : SpatialGrid) (seedKey : GridKey) :
    ∀ k v, grid.cells.lookup k = some v →
      v.gridPos ∈ gridPosUniverse grid seedKey := by
  intro k v hkv
  have hmem : (k, v) ∈ grid.cells := by
    have haux : ∀ l : List (GridKey × VoxelCell),
        l.lookup k = some v → (k, v) ∈ l := by
      intro l
      induction l with
      | nil => intro hl; simp [List.lookup] at hl
      | cons e t ih =>
        intro hl
        rw [List.lookup] at hl
        split at hl
        · rename_i heq
          cases hl
          have : k = e.1 := by simpa using heq
          subst this
          exact List.mem_cons_self _ _
        · exact List.mem_cons_of_mem _ (ih hl)
    exact haux grid.cells hkv
  unfold gridPosUniverse
  apply Finset.mem_insert_of_mem
  rw [List.mem_toFinset]
  exact List.mem_map.mpr ⟨(k, v), hmem, rfl⟩

/-- First-step analysis of the traversal started on the seed queue: either
the visited cap aborts at the seed itself (empty cluster, cap recorded), or
the seed is admitted regardless of colour; in every case the loop
invariants and the cap-recording equivalences hold for the whole run. -/
theorem bfsLoop_seed_start (grid : SpatialGrid) (cfg : SelectionOptions)
    (seedCell : VoxelCell) (u : Finset GridKey)
    (hu : ∀ k v, grid.cells.lookup k = some v → v.gridPos ∈ u)
    (hq : ∀ i ∈ [(⟨seedCell.gridPos, seedCell, 0⟩ : QueueItem)], i.key ∈ u) :
    ((bfsLoop grid cfg seedCell.gridPos seedCell.avgColor u hu
        [⟨seedCell.gridPos, seedCell, 0⟩] hq ∅ [] 0 []).accepted.map
        Prod.fst = [] ∨
      seedCell.gridPos ∈
        (bfsLoop grid cfg seedCell.gridPos seedCell.avgColor u hu
          [⟨seedCell.gridPos, seedCell, 0⟩] hq ∅ [] 0 []).accepted.map
          Prod.fst) ∧
    (1 ≤ (bfsLoop grid cfg seedCell.gridPos seedCell.avgColor u hu
        [⟨seedCell.gridPos, seedCell, 0⟩] hq ∅ [] 0 []).accepted.length →
      seedCell.gridPos ∈
        (bfsLoop grid cfg seedCell.gridPos seedCell.avgColor u hu
          [⟨seedCell.gridPos, seedCell, 0⟩] hq ∅ [] 0 []).accepted.map
          Prod.fst) ∧
    (∀ e ∈ (bfsLoop grid cfg seedCell.gridPos seedCell.avgColor u hu
        [⟨seedCell.gridPos, seedCell, 0⟩] hq ∅ [] 0 []).accepted,
      e.1 = seedCell.gridPos ∨
        colorPassB e.2.avgColor seedCell.avgColor
          cfg.colorDistanceThreshold = true) ∧
    (∀ s ∈ (bfsLoop grid cfg seedCell.gridPos seedCell.avgColor u hu
        [⟨seedCell.gridPos, seedCell, 0⟩] hq ∅ [] 0 []).reasons,
      s = "maxVisitedCells" ∨ s = "maxClusterCells") ∧
    (bfsLoop grid cfg seedCell.gridPos seedCell.avgColor u hu
      [⟨seedCell.gridPos, seedCell, 0⟩] hq ∅ [] 0 []).accepted.length ≤
      max cfg.maxClusterCells 1 ∧
    (bfsLoop grid cfg seedCell.gridPos seedCell.avgColor u hu
      [⟨seedCell.gridPos, seedCell, 0⟩] hq ∅ [] 0 []).visited.card ≤
      cfg.maxVisitedCells + 1 ∧
    ("maxVisitedCells" ∈ (bfsLoop grid cfg seedCell.gridPos
        seedCell.avgColor u hu [⟨seedCell.gridPos, seedCell, 0⟩] hq ∅ [] 0
        []).reasons ↔
      cfg.maxVisitedCells < (bfsLoop grid cfg seedCell.gridPos
        seedCell.avgColor u hu [⟨seedCell.gridPos, seedCell, 0⟩] hq ∅ [] 0
        []).visited.card) ∧
    ("maxClusterCells" ∈ (bfsLoop grid cfg seedCell.gridPos
        seedCell.avgColor u hu [⟨seedCell.gridPos, seedCell, 0⟩] hq ∅ [] 0
        []).reasons ↔
      (cfg.maxClusterCells ≤ (bfsLoop grid cfg seedCell.gridPos
          seedCell.avgColor u hu [⟨seedCell.gridPos, seedCell, 0⟩] hq ∅ []
          0 []).accepted.length ∧
       (bfsLoop grid cfg seedCell.gridPos seedCell.avgColor u hu
          [⟨seedCell.gridPos, seedCell, 0⟩] hq ∅ [] 0
          []).accepted.length ≠ 0)) := by
  have hc1 : (insert seedCell.gridPos (∅ : Finset GridKey)).card = 1 := by
    simp
  rw [bfsLoop]
  rw [dif_neg (Finset.not_mem_empty _)]
  by_cases hv0 : cfg.maxVisitedCells <
      (insert seedCell.gridPos (∅ : Finset GridKey)).card
  · rw [if_pos hv0]
    dsimp only
    refine ⟨Or.inl rfl, ?_, ?_, ?_, ?_, ?_, ?_, ?_⟩
    · intro h1
      simp at h1
    · intro e he
      exact absurd he (List.not_mem_nil e)
    · intro s hs
      left
      simpa using hs
    · simp
    · rw [hc1]
      omega
    · constructor
      · intro _
        exact hv0
      · intro _
        simp
    · constructor
      · intro hmem
        simp at hmem
      · rintro ⟨-, h0⟩
        exact absurd rfl h0
  · rw [if_neg hv0]
    rw [if_neg (fun hcontra => hcontra.1 rfl)]
    have hlen1 : (updateAssoc ([] : List (GridKey × VoxelCell))
        seedCell.gridPos seedCell).length = 1 := by
      simp [updateAssoc]
    have hacc1 : ∀ e ∈ updateAssoc ([] : List (GridKey × VoxelCell))
        seedCell.gridPos seedCell,
        e.1 = seedCell.gridPos ∨
          colorPassB e.2.avgColor seedCell.avgColor
            cfg.colorDistanceThreshold = true := by
      intro e he
      simp only [updateAssoc, List.mem_singleton] at he
      subst he
      exact Or.inl rfl
    have hkey1 : seedCell.gridPos ∈
        (updateAssoc ([] : List (GridKey × VoxelCell)) seedCell.gridPos
          seedCell).map Prod.fst := by
      simp [updateAssoc]
    by_cases hcl : cfg.maxClusterCells ≤
        (updateAssoc [] seedCell.gridPos seedCell).length
    · rw [if_pos hcl]
      dsimp only
      refine ⟨Or.inr hkey1, fun _ => hkey1, hacc1, ?_, ?_, ?_, ?_, ?_⟩
      · intro s hs
        right
        simpa using hs
      · simp [updateAssoc]
      · rw [hc1]
        omega
      · constructor
        · intro hmem
          simp at hmem
        · intro hlt
          exact absurd hlt hv0
      · constructor
        · intro _
          refine ⟨hcl, ?_⟩
          rw [hlen1]
          omega
        · intro _
          simp
    · rw [if_neg hcl]
      have Hgen : ∀ (q : List QueueItem) (hq2 : ∀ i ∈ q, i.key ∈ u),
          (∀ e ∈ (bfsLoop grid cfg seedCell.gridPos seedCell.avgColor u hu
              q hq2 (insert seedCell.gridPos ∅)
              (updateAssoc [] seedCell.gridPos seedCell) 0 []).accepted,
            e.1 = seedCell.gridPos ∨
              colorPassB e.2.avgColor seedCell.avgColor
                cfg.colorDistanceThreshold = true) ∧
          (∀ s ∈ (bfsLoop grid cfg seedCell.gridPos seedCell.avgColor u hu
              q hq2 (insert seedCell.gridPos ∅)
              (updateAssoc [] seedCell.gridPos seedCell) 0 []).reasons,
            s = "maxVisitedCells" ∨ s = "maxClusterCells") ∧
          (bfsLoop grid cfg seedCell.gridPos seedCell.avgColor u hu q hq2
            (insert seedCell.gridPos ∅)
            (updateAssoc [] seedCell.gridPos seedCell) 0
            []).accepted.length ≤ max cfg.maxClusterCells 1 ∧
          (bfsLoop grid cfg seedCell.gridPos seedCell.avgColor u hu q hq2
            (insert seedCell.gridPos ∅)
            (updateAssoc [] seedCell.gridPos seedCell) 0
            []).visited.card ≤ cfg.maxVisitedCells + 1 ∧
          (∀ k ∈ (updateAssoc ([] : List (GridKey × VoxelCell))
              seedCell.gridPos seedCell).map Prod.fst,
            k ∈ (bfsLoop grid cfg seedCell.gridPos seedCell.avgColor u hu
              q hq2 (insert seedCell.gridPos ∅)
              (updateAssoc [] seedCell.gridPos seedCell) 0
              []).accepted.map Prod.fst) ∧
          ("maxVisitedCells" ∈ (bfsLoop grid cfg seedCell.gridPos
              seedCell.avgColor u hu q hq2 (insert seedCell.gridPos ∅)
              (updateAssoc [] seedCell.gridPos seedCell) 0 []).reasons ↔
            cfg.maxVisitedCells < (bfsLoop grid cfg seedCell.gridPos
              seedCell.avgColor u hu q hq2 (insert seedCell.gridPos ∅)
              (updateAssoc [] seedCell.gridPos seedCell) 0
              []).visited.card) ∧
          ("maxClusterCells" ∈ (bfsLoop grid cfg seedCell.gridPos
              seedCell.avgColor u hu q hq2 (insert seedCell.gridPos ∅)
              (updateAssoc [] seedCell.gridPos seedCell) 0 []).reasons ↔
            (cfg.maxClusterCells ≤ (bfsLoop grid cfg seedCell.gridPos
                seedCell.avgColor u hu q hq2 (insert seedCell.gridPos ∅)
                (updateAssoc [] seedCell.gridPos seedCell) 0
                []).accepted.length ∧
             (bfsLoop grid cfg seedCell.gridPos seedCell.avgColor u hu q
                hq2 (insert seedCell.gridPos ∅)
                (updateAssoc [] seedCell.gridPos seedCell) 0
                []).accepted.length ≠ 0)) := by
        intro q hq2
        have H := bfsLoop_invariants grid cfg seedCell.gridPos
          seedCell.avgColor u hu q hq2 (insert seedCell.gridPos ∅)
          (updateAssoc [] seedCell.gridPos seedCell) 0 []
          hacc1 (fun s hs => absurd hs (List.not_mem_nil s))
          (by rw [hlen1]; omega) (by rw [hc1]; omega)
        have HR := bfsLoop_reason_iff grid cfg seedCell.gridPos
          seedCell.avgColor u hu q hq2 (insert seedCell.gridPos ∅)
          (updateAssoc [] seedCell.gridPos seedCell) 0 []
          (by rw [hlen1]; omega) (by rw [hc1]; omega) rfl
        exact ⟨H.1, H.2.1, H.2.2.1, H.2.2.2.1, H.2.2.2.2, HR.1, HR.2⟩
      by_cases hd : cfg.maxDepth ≤ 0
      · rw [if_pos hd]
        have HG := Hgen [] (fun i hi => absurd hi (List.not_mem_nil i))
        exact ⟨Or.inr (HG.2.2.2.2.1 seedCell.gridPos hkey1),
          fun _ => HG.2.2.2.2.1 seedCell.gridPos hkey1, HG.1, HG.2.1,
          HG.2.2.1, HG.2.2.2.1, HG.2.2.2.2.2.1, HG.2.2.2.2.2.2⟩
      · rw [if_neg hd]
        have HG := Hgen
          ([] ++ (getFaceNeighbors grid seedCell).filterMap
            (fun n => if n.gridPos ∈ insert seedCell.gridPos
                (∅ : Finset GridKey) then none
              else some ⟨n.gridPos, n, 0 + 1⟩))
          (by
            intro i hi
            rcases List.mem_append.mp hi with hmem | hmem
            · exact absurd hmem (List.not_mem_nil i)
            · rcases List.mem_filterMap.mp hmem with ⟨n, hn, hfn⟩
              have hkey : i.key = n.gridPos := by
                by_cases hv2 : n.gridPos ∈ insert seedCell.gridPos
                    (∅ : Finset GridKey)
                · rw [if_pos hv2] at hfn
                  exact absurd hfn (by simp)
                · rw [if_neg hv2] at hfn
                  cases Option.some.inj hfn
                  rfl
              rcases List.mem_filterMap.mp hn with ⟨cand, -, hbody⟩
              by_cases hbad : cand.1 < 0 ∨ cand.2.1 < 0 ∨ cand.2.2 < 0 ∨
                  grid.resolution.1 ≤ cand.1 ∨
                  grid.resolution.2.1 ≤ cand.2.1 ∨
                  grid.resolution.2.2 ≤ cand.2.2
              · rw [if_pos hbad] at hbody
                exact absurd hbody (by simp)
              · rw [if_neg hbad] at hbody
                rw [hkey]
                exact hu _ n hbody)
        exact ⟨Or.inr (HG.2.2.2.2.1 seedCell.gridPos hkey1),
          fun _ => HG.2.2.2.2.1 seedCell.gridPos hkey1, HG.1, HG.2.1,
          HG.2.2.1, HG.2.2.2.1, HG.2.2.2.2.2.1, HG.2.2.2.2.2.2⟩

/-- Claim C6 (amended): for every non-null `SelectionResult`, the seed cell
key is a member of `clusterCellKeys` whenever the cluster is non-empty (in
particular whenever `minClusterCells ≥ 1`, as the default 2 ensures; with a
zero visited cap and a zero cluster minimum the traversal aborts before
admitting the seed and the selection is empty), every member other than the
seed passed the Euclidean colour-distance gate against the seed colour, the
visited-cell and cluster-size caps bound the traversal
(`visitedCells ≤ maxVisitedCells + 1`, `|cluster| ≤ max maxClusterCells 1`),
and a fired cap is recorded in `diagnostics.reason`: `"maxVisitedCells"`
appears there exactly when the visited count exceeds `maxVisitedCells`,
`"maxClusterCells"` exactly when the non-empty cluster reached
`maxClusterCells`, and no other string is ever recorded — the depth cap
silently stops expansion and is never recorded. -/
theorem buildLocalSelection_cluster_spec (grid : SpatialGrid) (click : Vec3)
    (opts : SelectionOptions) (r : SelectionResult)
    (h : buildLocalSelection grid click opts = some r) :
    (r.clusterCellKeys = [] ∨ r.seedCellKey ∈ r.clusterCellKeys) ∧
    (1 ≤ opts.minClusterCells → r.seedCellKey ∈ r.clusterCellKeys) ∧
    (∃ seedCell, getCellAtWorldPos grid click = some seedCell ∧
      r.seedCellKey = seedCell.gridPos ∧
      ∃ accepted : List (GridKey × VoxelCell),
        r.clusterCellKeys = accepted.map Prod.fst ∧
        ∀ e ∈ accepted, e.1 = seedCell.gridPos ∨
          colorPassB e.2.avgColor seedCell.avgColor
            opts.colorDistanceThreshold = true) ∧
    (∀ s ∈ r.diagnostics.reason,
      s = "maxVisitedCells" ∨ s = "maxClusterCells") ∧
    ("maxVisitedCells" ∈ r.diagnostics.reason ↔
      opts.maxVisitedCells < r.diagnostics.visitedCells) ∧
    ("maxClusterCells" ∈ r.diagnostics.reason ↔
      (opts.maxClusterCells ≤ r.clusterCellKeys.length ∧
        r.clusterCellKeys.length ≠ 0)) ∧
    r.clusterCellKeys.length ≤ max opts.maxClusterCells 1 ∧
    r.diagnostics.visitedCells ≤ opts.maxVisitedCells + 1 := by
  unfold buildLocalSelection at h
  cases hseed : getCellAtWorldPos grid click with
  | none =>
    rw [hseed] at h
    exact absurd h (by simp)
  | some seedCell =>
    rw [hseed] at h
    dsimp only at h
    split at h
    · exact absurd h (by simp)
    · rename_i hmin
      have hr := Option.some.inj h
      subst hr
      dsimp only
      have hqQ : ∀ i ∈ [(⟨seedCell.gridPos, seedCell, 0⟩ : QueueItem)],
          i.key ∈ gridPosUniverse grid seedCell.gridPos := by
        intro i hi
        rcases List.mem_cons.mp hi with rfl | hi2
        · exact Finset.mem_insert_self _ _
        · exact absurd hi2 (List.not_mem_nil i)
      have H := bfsLoop_seed_start grid opts seedCell
        (gridPosUniverse grid seedCell.gridPos)
        (lookup_mem_universe grid seedCell.gridPos) hqQ
      have hmin2 : ¬ ((bfsLoop grid opts seedCell.gridPos
          seedCell.avgColor (gridPosUniverse grid seedCell.gridPos)
          (lookup_mem_universe grid seedCell.gridPos)
          [⟨seedCell.gridPos, seedCell, 0⟩] hqQ
          ∅ [] 0 []).accepted.length < opts.minClusterCells) := hmin
      refine ⟨H.1, ?_, ⟨seedCell, rfl, rfl, _, rfl, H.2.2.1⟩, H.2.2.2.1,
        H.2.2.2.2.2.2.1, ?_, ?_, H.2.2.2.2.2.1⟩
      · intro h1le
        exact H.2.1 (by omega)
      · rw [List.length_map]
        exact H.2.2.2.2.2.2.2
      · rw [List.length_map]
        exact H.2.2.2.2.1

theorem line_eval :
    buildLocalSelection lineGrid ⟨1 / 2, 1 / 2, 1 / 2⟩ depthOptions =
      some rDepth := by
  have step2 : ∀ (hu : ∀ k v, lineGrid.cells.lookup k = some v →
        v.gridPos ∈ gridPosUniverse lineGrid cellL0.gridPos)
      (hq : ∀ i ∈ [(⟨(1, 0, 0), cellL1, 1⟩ : QueueItem)],
        i.key ∈ gridPosUniverse lineGrid cellL0.gridPos),
      bfsLoop lineGrid depthOptions cellL0.gridPos cellL0.avgColor
        (gridPosUniverse lineGrid cellL0.gridPos) hu
        [⟨(1, 0, 0), cellL1, 1⟩] hq (insert (0, 0, 0) ∅)
        [((0, 0, 0), cellL0)] 0 [] =
        ⟨{(1, 0, 0), (0, 0, 0)},
         [((0, 0, 0), cellL0), ((1, 0, 0), cellL1)], 0, []⟩ := by
    intro hu hq
    rw [bfsLoop]
    rw [dif_neg (by with_unfolding_all decide)]
    rw [if_neg (by with_unfolding_all decide)]
    rw [if_neg (by with_unfolding_all decide)]
    rw [if_neg (by with_unfolding_all decide)]
    rw [if_pos (by with_unfolding_all decide)]
    exact bfsLoop_nil _ _ _ _ _ _ _ _ _ _ _
  have step1 : ∀ (hu : ∀ k v, lineGrid.cells.lookup k = some v →
        v.gridPos ∈ gridPosUniverse lineGrid cellL0.gridPos)
      (hq : ∀ i ∈ [(⟨cellL0.gridPos, cellL0, 0⟩ : QueueItem)],
        i.key ∈ gridPosUniverse lineGrid cellL0.gridPos),
      bfsLoop lineGrid depthOptions cellL0.gridPos cellL0.avgColor
        (gridPosUniverse lineGrid cellL0.gridPos) hu
        [⟨cellL0.gridPos, cellL0, 0⟩] hq ∅ [] 0 [] =
        ⟨{(1, 0, 0), (0, 0, 0)},
         [((0, 0, 0), cellL0), ((1, 0, 0), cellL1)], 0, []⟩ := by
    intro hu hq
    rw [bfsLoop]
    rw [dif_neg (by with_unfolding_all decide)]
    rw [if_neg (by with_unfolding_all decide)]
    rw [if_neg (by with_unfolding_all decide)]
    rw [if_neg (by with_unfolding_all decide)]
    rw [if_neg (by with_unfolding_all decide)]
    exact step2 _ _
  have hseed : getCellAtWorldPos lineGrid ⟨1 / 2, 1 / 2, 1 / 2⟩ =
      some cellL0 := by
    with_unfolding_all decide
  unfold buildLocalSelection
  rw [hseed]
  dsimp only
  rw [step1 _ _]
  with_unfolding_all decide

theorem cap_eval :
    buildLocalSelection lineGrid ⟨1 / 2, 1 / 2, 1 / 2⟩ capOptions =
      some rCap := by
  have step2 : ∀ (hu : ∀ k v, lineGrid.cells.lookup k = some v →
        v.gridPos ∈ gridPosUniverse lineGrid cellL0.gridPos)
      (hq : ∀ i ∈ [(⟨(1, 0, 0), cellL1, 1⟩ : QueueItem)],
        i.key ∈ gridPosUniverse lineGrid cellL0.gridPos),
      bfsLoop lineGrid capOptions cellL0.gridPos cellL0.avgColor
        (gridPosUniverse lineGrid cellL0.gridPos) hu
        [⟨(1, 0, 0), cellL1, 1⟩] hq (insert (0, 0, 0) ∅)
        [((0, 0, 0), cellL0)] 0 [] =
        ⟨{(1, 0, 0), (0, 0, 0)},
         [((0, 0, 0), cellL0), ((1, 0, 0), cellL1)], 0,
         ["maxClusterCells"]⟩ := by
    intro hu hq
    rw [bfsLoop]
    rw [dif_neg (by with_unfolding_all decide)]
    rw [if_neg (by with_unfolding_all decide)]
    rw [if_neg (by with_unfolding_all decide)]
    rw [if_pos (by with_unfolding_all decide)]
    with_unfolding_all decide
  have step1 : ∀ (hu : ∀ k v, lineGrid.cells.lookup k = some v →
        v.gridPos ∈ gridPosUniverse lineGrid cellL0.gridPos)
      (hq : ∀ i ∈ [(⟨cellL0.gridPos, cellL0, 0⟩ : QueueItem)],
        i.key ∈ gridPosUniverse lineGrid cellL0.gridPos),
      bfsLoop lineGrid capOptions cellL0.gridPos cellL0.avgColor
        (gridPosUniverse lineGrid cellL0.gridPos) hu
        [⟨cellL0.gridPos, cellL0, 0⟩] hq ∅ [] 0 [] =
        ⟨{(1, 0, 0), (0, 0, 0)},
         [((0, 0, 0), cellL0), ((1, 0, 0), cellL1)], 0,
         ["maxClusterCells"]⟩ := by
    intro hu hq
    rw [bfsLoop]
    rw [dif_neg (by with_unfolding_all decide)]
    rw [if_neg (by with_unfolding_all decide)]
    rw [if_neg (by with_unfolding_all decide)]
    rw [if_neg (by with_unfolding_all decide)]
    rw [if_neg (by with_unfolding_all decide)]
    exact step2 _ _
  have hseed : getCellAtWorldPos lineGrid ⟨1 / 2, 1 / 2, 1 / 2⟩ =
      some cellL0 := by
    with_unfolding_all decide
  unfold buildLocalSelection
  rw [hseed]
  dsimp only
  rw [step1 _ _]
  with_unfolding_all decide

theorem zero_eval :
    buildLocalSelection lineGrid ⟨1 / 2, 1 / 2, 1 / 2⟩ zeroOptions =
      some rZero := by
  have step1 : ∀ (hu : ∀ k v, lineGrid.cells.lookup k = some v →
        v.gridPos ∈ gridPosUniverse lineGrid cellL0.gridPos)
      (hq : ∀ i ∈ [(⟨cellL0.gridPos, cellL0, 0⟩ : QueueItem)],
        i.key ∈ gridPosUniverse lineGrid cellL0.gridPos),
      bfsLoop lineGrid zeroOptions cellL0.gridPos cellL0.avgColor
        (gridPosUniverse lineGrid cellL0.gridPos) hu
        [⟨cellL0.gridPos, cellL0, 0⟩] hq ∅ [] 0 [] =
        ⟨{(0, 0, 0)}, [], 0, ["maxVisitedCells"]⟩ := by
    intro hu hq
    rw [bfsLoop]
    rw [dif_neg (by with_unfolding_all decide)]
    rw [if_pos (by with_unfolding_all decide)]
    with_unfolding_all decide
  have hseed : getCellAtWorldPos lineGrid ⟨1 / 2, 1 / 2, 1 / 2⟩ =
      some cellL0 := by
    with_unfolding_all decide
  unfold buildLocalSelection
  rw [hseed]
  dsimp only
  rw [step1 _ _]
  with_unfolding_all decide

/-- Claim C6, counterexample.  First, the depth cap is never recorded: on
the three-cell colour-identical line with `maxDepth = 1`, the third cell is
6-connected to the cluster and passes the colour gate, but the depth cap
stops expansion before reaching it while `diagnostics.reason` stays empty,
contradicting the claim that a violated `maxDepth` bound is recorded there.
Second, the unconditional seed-membership sentence fails in the one corner
where the cluster is empty: with a zero visited cap and a zero cluster
minimum the cap fires at the seed itself and the non-null selection has no
cluster members at all (the fired cap being recorded). -/
theorem buildLocalSelection_depth_reason_counterexample :
    (buildLocalSelection lineGrid ⟨1 / 2, 1 / 2, 1 / 2⟩ depthOptions =
      some rDepth ∧
    rDepth.diagnostics.reason = [] ∧
    ((2 : ℤ), (0 : ℤ), (0 : ℤ)) ∉ rDepth.clusterCellKeys ∧
    lineGrid.cells.lookup ((2 : ℤ), (0 : ℤ), (0 : ℤ)) = some cellL2 ∧
    colorPassB cellL2.avgColor cellL0.avgColor
      depthOptions.colorDistanceThreshold = true) ∧
    (buildLocalSelection lineGrid ⟨1 / 2, 1 / 2, 1 / 2⟩ zeroOptions =
      some rZero ∧
    rZero.clusterCellKeys = [] ∧
    rZero.seedCellKey ∉ rZero.clusterCellKeys ∧
    rZero.diagnostics.reason = ["maxVisitedCells"]) :=
  ⟨⟨line_eval, by with_unfolding_all decide, by with_unfolding_all decide,
    by with_unfolding_all decide, by with_unfolding_all decide⟩,
   ⟨zero_eval, by with_unfolding_all decide, by with_unfolding_all decide,
    by with_unfolding_all decide⟩⟩

theorem buildLocalSelection_cluster_spec_witness :
    buildLocalSelection lineGrid ⟨1 / 2, 1 / 2, 1 / 2⟩ capOptions =
      some rCap ∧
    rCap.diagnostics.reason = ["maxClusterCells"] ∧
    rCap.seedCellKey ∈ rCap.clusterCellKeys ∧
    ("maxClusterCells" ∈ rCap.diagnostics.reason ↔
      (capOptions.maxClusterCells ≤ rCap.clusterCellKeys.length ∧
        rCap.clusterCellKeys.length ≠ 0)) ∧
    ("maxVisitedCells" ∈ rCap.diagnostics.reason ↔
      capOptions.maxVisitedCells < rCap.diagnostics.visitedCells) ∧
    (∀ s ∈ rCap.diagnostics.reason,
      s = "maxVisitedCells" ∨ s = "maxClusterCells") ∧
    rCap.clusterCellKeys.length ≤ max capOptions.maxClusterCells 1 ∧
    rCap.diagnostics.visitedCells ≤ capOptions.maxVisitedCells + 1 := by
  have H := buildLocalSelection_cluster_spec lineGrid ⟨1 / 2, 1 / 2, 1 / 2⟩
    capOptions rCap cap_eval
  exact ⟨cap_eval, by with_unfolding_all decide,
    H.2.1 (by decide), H.2.2.2.2.2.1, H.2.2.2.2.1, H.2.2.2.1,
    H.2.2.2.2.2.2.1, H.2.2.2.2.2.2.2⟩

/-- Claim C4, counterexample: on the two-cell X-elongated cluster the bounds
are `(2,1,1)` — the X axis dominates both other axes by more than 1.8 and the
max-to-min ratio is 2 ≥ 1.6 — yet the source suggests a BOX, not the
ELLIPSOID the claim (which lets any dominant axis trigger an ellipsoid)
requires: only Y-dominance is tested by the code. -/
theorem buildLocalSelection_shape_counterexample :
    buildLocalSelection elongGrid ⟨1 / 2, 1 / 2, 1 / 2⟩
      DEFAULT_SELECTION_OPTIONS = some rElong ∧
    (eboxGetSize rElong.clusterBounds).y * (9 / 5) <
      (eboxGetSize rElong.clusterBounds).x ∧
    (eboxGetSize rElong.clusterBounds).z * (9 / 5) <
      (eboxGetSize rElong.clusterBounds).x ∧
    ¬ (max (eboxGetSize rElong.clusterBounds).x
        (max (eboxGetSize rElong.clusterBounds).y
          (eboxGetSize rElong.clusterBounds).z) /
      max (min (eboxGetSize rElong.clusterBounds).x
        (min (eboxGetSize rElong.clusterBounds).y
          (eboxGetSize rElong.clusterBounds).z)) (1 / 1000) < 8 / 5) ∧
    rElong.suggestedShape.type = SDFShapeType.BOX :=
  ⟨elong_eval, by with_unfolding_all decide, by with_unfolding_all decide,
   by with_unfolding_all decide, by with_unfolding_all decide⟩

theorem buildLocalSelection_shape_spec_witness :
    buildLocalSelection elongGrid ⟨1 / 2, 1 / 2, 1 / 2⟩
      DEFAULT_SELECTION_OPTIONS = some rElong ∧
    rElong.suggestedShape =
      { type := SDFShapeType.BOX, position := rElong.clusterCenter,
        rotation := none, radius := none,
        scale := some ⟨57 / 50, 57 / 100, 57 / 100⟩,
        color := none, opacity := none, displace := none } := by
  refine ⟨elong_eval, ?_⟩
  have H := buildLocalSelection_shape_spec elongGrid ⟨1 / 2, 1 / 2, 1 / 2⟩
    DEFAULT_SELECTION_OPTIONS rElong elong_eval
  rw [(H.2 (by with_unfolding_all decide)).2 (by with_unfolding_all decide)]
  with_unfolding_all decide

theorem ringStep_ne_none (pos : Vec3) (best : Option (VoxelCell × ℚ))
    (a : VoxelCell) : ringStep pos best a ≠ none := by
  cases best with
  | none => simp [ringStep]
  | some p =>
    obtain ⟨b, bd⟩ := p
    simp only [ringStep]
    split <;> simp

theorem ringStep_foldl_eq_none (pos : Vec3) (l : List VoxelCell)
    (init : Option (VoxelCell × ℚ)) :
    l.foldl (ringStep pos) init = none ↔ init = none ∧ l = [] := by
  induction l generalizing init with
  | nil => simp
  | cons a t ih =>
    simp only [List.foldl_cons, ih]
    constructor
    · rintro ⟨h1, -⟩
      exact absurd h1 (ringStep_ne_none pos init a)
    · rintro ⟨-, h2⟩
      exact absurd h2 (List.cons_ne_nil a t)

theorem ringStep_foldl_spec (pos : Vec3) (l : List VoxelCell)
    (init : Option (VoxelCell × ℚ)) (c : VoxelCell) (d : ℚ)
    (h : l.foldl (ringStep pos) init = some (c, d)) :
    (init = some (c, d) ∨
      (c ∈ l ∧ d = distanceToSquared c.worldCenter pos)) ∧
    (∀ x ∈ l, d ≤ distanceToSquared x.worldCenter pos) ∧
    (∀ b bd, init = some (b, bd) → d ≤ bd) := by
  induction l generalizing init with
  | nil =>
    simp only [List.foldl_nil] at h
    refine ⟨Or.inl h, by simp, fun b bd hb => ?_⟩
    rw [h] at hb
    injection hb with h2
    injection h2 with h3 h4
    subst h3
    subst h4
    exact le_refl d
  | cons a t ih =>
    simp only [List.foldl_cons] at h
    have H := ih (ringStep pos init a) h
    cases hinit : init with
    | none =>
      rw [hinit] at H
      have hstep : ringStep pos none a =
          some (a, distanceToSquared a.worldCenter pos) := rfl
      rw [hstep] at H
      refine ⟨?_, ?_, ?_⟩
      · rcases H.1 with h1 | h1
        · injection h1 with h2
          injection h2 with h3 h4
          subst h3
          subst h4
          exact Or.inr ⟨List.mem_cons_self a t, rfl⟩
        · exact Or.inr ⟨List.mem_cons_of_mem a h1.1, h1.2⟩
      · intro x hx
        rcases List.mem_cons.mp hx with rfl | hx
        · exact H.2.2 x (distanceToSquared x.worldCenter pos) rfl
        · exact H.2.1 x hx
      · intro b bd hb
        exact absurd hb (by simp)
    | some p =>
      obtain ⟨b0, bd0⟩ := p
      rw [hinit] at H
      by_cases hlt : distanceToSquared a.worldCenter pos < bd0
      · have hstep : ringStep pos (some (b0, bd0)) a =
            some (a, distanceToSquared a.worldCenter pos) := by
          simp [ringStep, hlt]
        rw [hstep] at H
        refine ⟨?_, ?_, ?_⟩
        · rcases H.1 with h1 | h1
          · injection h1 with h2
            injection h2 with h3 h4
            subst h3
            subst h4
            exact Or.inr ⟨List.mem_cons_self a t, rfl⟩
          · exact Or.inr ⟨List.mem_cons_of_mem a h1.1, h1.2⟩
        · intro x hx
          rcases List.mem_cons.mp hx with rfl | hx
          · exact le_trans (H.2.2 x (distanceToSquared x.worldCenter pos) rfl)
              (le_refl _)
          · exact H.2.1 x hx
        · intro b bd hb
          injection hb with h2
          injection h2 with h3 h4
          subst h3
          subst h4
          exact le_trans (H.2.2 a (distanceToSquared a.worldCenter pos) rfl)
            (le_of_lt hlt)
      · have hstep : ringStep pos (some (b0, bd0)) a = some (b0, bd0) := by
          simp [ringStep, hlt]
        rw [hstep] at H
        have hdbd : d ≤ bd0 := H.2.2 b0 bd0 rfl
        refine ⟨?_, ?_, ?_⟩
        · rcases H.1 with h1 | h1
          · exact Or.inl h1
          · exact Or.inr ⟨List.mem_cons_of_mem a h1.1, h1.2⟩
        · intro x hx
          rcases List.mem_cons.mp hx with rfl | hx
          · exact le_trans hdbd (not_lt.mp hlt)
          · exact H.2.1 x hx
        · intro b bd hb
          injection hb with h2
          injection h2 with h3 h4
          subst h3
          subst h4
          exact hdbd

theorem ringLoop_eq_none (grid : SpatialGrid) (pos : Vec3) (c : GridKey)
    (radii : List ℤ) (init : Option (VoxelCell × ℚ)) :
    (ringLoop grid pos c radii init).1 = none ↔
      init = none ∧ (ringLoop grid pos c radii init).2 = [] := by
  induction radii generalizing init with
  | nil => simp [ringLoop]
  | cons r rs ih =>
    by_cases hbr : breakCond init (minRingDist grid r) = true
    · simp [ringLoop, hbr]
    · have hbr' : breakCond init (minRingDist grid r) = false :=
        Bool.eq_false_iff.mpr hbr
      simp only [ringLoop, hbr', Bool.false_eq_true, if_false]
      rw [ih, ringStep_foldl_eq_none, List.append_eq_nil]
      tauto

theorem ringLoop_spec (grid : SpatialGrid) (pos : Vec3) (c : GridKey)
    (radii : List ℤ) (init : Option (VoxelCell × ℚ)) (cell : VoxelCell)
    (d : ℚ) (h : (ringLoop grid pos c radii init).1 = some (cell, d)) :
    (init = some (cell, d) ∨
      (cell ∈ (ringLoop grid pos c radii init).2 ∧
        d = distanceToSquared cell.worldCenter pos)) ∧
    (∀ x ∈ (ringLoop grid pos c radii init).2,
      d ≤ distanceToSquared x.worldCenter pos) ∧
    (∀ b bd, init = some (b, bd) → d ≤ bd) := by
  induction radii generalizing init with
  | nil =>
    simp only [ringLoop] at h ⊢
    refine ⟨Or.inl h, by simp, fun b bd hb => ?_⟩
    rw [h] at hb
    injection hb with h2
    injection h2 with h3 h4
    subst h3
    subst h4
    exact le_refl d
  | cons r rs ih =>
    by_cases hbr : breakCond init (minRingDist grid r) = true
    · simp only [ringLoop, hbr, if_true] at h ⊢
      refine ⟨Or.inl h, by simp, fun b bd hb => ?_⟩
      rw [h] at hb
      injection hb with h2
      injection h2 with h3 h4
      subst h3
      subst h4
      exact le_refl d
    · have hbr' : breakCond init (minRingDist grid r) = false :=
        Bool.eq_false_iff.mpr hbr
      simp only [ringLoop, hbr', Bool.false_eq_true, if_false] at h ⊢
      have H := ih ((cubeCells grid c r).foldl (ringStep pos) init) h
      refine ⟨?_, ?_, ?_⟩
      · rcases H.1 with hA | hA
        · have F := ringStep_foldl_spec pos (cubeCells grid c r) init cell d hA
          rcases F.1 with h1 | h1
          · exact Or.inl h1
          · exact Or.inr ⟨List.mem_append_left _ h1.1, h1.2⟩
        · exact Or.inr ⟨List.mem_append_right _ hA.1, hA.2⟩
      · intro x hx
        rcases List.mem_append.mp hx with hx | hx
        · cases hinit2 : (cubeCells grid c r).foldl (ringStep pos) init with
          | none =>
            obtain ⟨-, h2⟩ :=
              (ringStep_foldl_eq_none pos (cubeCells grid c r) init).mp hinit2
            rw [h2] at hx
            exact absurd hx (List.not_mem_nil x)
          | some p =>
            obtain ⟨c0, d0⟩ := p
            have F := ringStep_foldl_spec pos (cubeCells grid c r) init c0 d0
              hinit2
            exact le_trans (H.2.2 c0 d0 hinit2) (F.2.1 x hx)
        · exact H.2.1 x hx
      · intro b bd hb
        cases hinit2 : (cubeCells grid c r).foldl (ringStep pos) init with
        | none =>
          obtain ⟨h1, -⟩ :=
            (ringStep_foldl_eq_none pos (cubeCells grid c r) init).mp hinit2
          rw [h1] at hb
          exact absurd hb (by simp)
        | some p =>
          obtain ⟨c0, d0⟩ := p
          have F := ringStep_foldl_spec pos (cubeCells grid c r) init c0 d0
            hinit2
          exact le_trans (H.2.2 c0 d0 hinit2) (F.2.2 b bd hb)

theorem ringLoop_examined_nil (grid : SpatialGrid) (pos : Vec3) (c : GridKey)
    (radii : List ℤ) :
    (ringLoop grid pos c radii none).2 = [] ↔
      ∀ r ∈ radii, cubeCells grid c r = [] := by
  induction radii with
  | nil => simp [ringLoop]
  | cons r rs ih =>
    have hbr : breakCond (none : Option (VoxelCell × ℚ))
        (minRingDist grid r) = false := rfl
    simp only [ringLoop, hbr, Bool.false_eq_true, if_false]
    by_cases hcube : cubeCells grid c r = []
    · rw [hcube]
      simp only [List.foldl_nil, List.nil_append]
      rw [ih]
      constructor
      · intro h
        intro x hx
        rcases List.mem_cons.mp hx with rfl | hx
        · exact hcube
        · exact h x hx
      · intro h
        exact fun x hx => h x (List.mem_cons_of_mem r hx)
    · constructor
      · intro h
        exact absurd (List.append_eq_nil.mp h).1 hcube
      · intro h
        exact absurd (h r (List.mem_cons_self r rs)) hcube

/-- Claim C3: when the exact and clamped grid cells of the query are both
unoccupied, `getCellAtWorldPos` performs the expanding ring search capped at 5
rings (with stopping bound `minRingDist = min(cellSize) * (r - 1)`): it
returns `none` exactly when no occupied cell exists in any of the five
clipped cubes, and otherwise returns an occupied cell of minimum world
distance to the query among all the cells the ring loop examined (not the
first ring hit). -/
theorem getCellAtWorldPos_ring_spec (grid : SpatialGrid) (pos : Vec3)
    (hexact : ∀ coord,
      worldPosToGridCoord pos grid.worldBounds grid.resolution false =
        some coord →
      grid.cells.lookup (gridKey coord.1 coord.2.1 coord.2.2) = none)
    (hclamped : ∀ coord,
      worldPosToGridCoord pos grid.worldBounds grid.resolution true =
        some coord →
      grid.cells.lookup (gridKey coord.1 coord.2.1 coord.2.2) = none)
    (clamped : GridKey)
    (hc : worldPosToGridCoord pos grid.worldBounds grid.resolution true =
      some clamped) :
    (getCellAtWorldPos grid pos = none ↔
      ∀ r ∈ ([1, 2, 3, 4, 5] : List ℤ), cubeCells grid clamped r = []) ∧
    (∀ cell, getCellAtWorldPos grid pos = some cell →
      cell ∈ (ringLoop grid pos clamped [1, 2, 3, 4, 5] none).2 ∧
      ∀ x ∈ (ringLoop grid pos clamped [1, 2, 3, 4, 5] none).2,
        distanceToSquared cell.worldCenter pos ≤
          distanceToSquared x.worldCenter pos) := by
  have hred : getCellAtWorldPos grid pos =
      ((ringLoop grid pos clamped [1, 2, 3, 4, 5] none).1).map Prod.fst := by
    unfold getCellAtWorldPos
    cases hwe : worldPosToGridCoord pos grid.worldBounds grid.resolution false
      with
    | none => simp [hwe, hc, hclamped clamped hc]
    | some coord => simp [hwe, hexact coord hwe, hc, hclamped clamped hc]
  constructor
  · rw [hred]
    constructor
    · intro h
      have hfin := Option.map_eq_none'.mp h
      exact (ringLoop_examined_nil grid pos clamped [1, 2, 3, 4, 5]).mp
        ((ringLoop_eq_none grid pos clamped [1, 2, 3, 4, 5] none).mp hfin).2
    · intro h
      have hex :=
        (ringLoop_examined_nil grid pos clamped [1, 2, 3, 4, 5]).mpr h
      have hfin := (ringLoop_eq_none grid pos clamped [1, 2, 3, 4, 5]
        none).mpr ⟨rfl, hex⟩
      rw [hfin]
      rfl
  · intro cell hcell
    rw [hred] at hcell
    cases hfin : (ringLoop grid pos clamped [1, 2, 3, 4, 5] none).1 with
    | none =>
      rw [hfin] at hcell
      exact absurd hcell (by simp)
    | some p =>
      obtain ⟨c0, d0⟩ := p
      rw [hfin] at hcell
      have hc0 : c0 = cell := by
        simpa using hcell
      subst hc0
      have H := ringLoop_spec grid pos clamped [1, 2, 3, 4, 5] none c0 d0 hfin
      rcases H.1 with h1 | h1
      · exact absurd h1 (by simp)
      · exact ⟨h1.1, fun x hx => h1.2 ▸ H.2.1 x hx⟩

theorem getCellAtWorldPos_ring_spec_witness :
    getCellAtWorldPos cornerGrid ⟨99, 99, 99⟩ = none := by
  have hex : ∀ coord,
      worldPosToGridCoord ⟨99, 99, 99⟩ cornerGrid.worldBounds
        cornerGrid.resolution false = some coord →
      cornerGrid.cells.lookup (gridKey coord.1 coord.2.1 coord.2.2) = none := by
    intro coord h
    have hval : worldPosToGridCoord ⟨99, 99, 99⟩ cornerGrid.worldBounds
        cornerGrid.resolution false = some ((19 : ℤ), (19 : ℤ), (19 : ℤ)) := by
      with_unfolding_all decide
    rw [hval] at h
    cases Option.some.inj h
    with_unfolding_all decide
  have hcl : ∀ coord,
      worldPosToGridCoord ⟨99, 99, 99⟩ cornerGrid.worldBounds
        cornerGrid.resolution true = some coord →
      cornerGrid.cells.lookup (gridKey coord.1 coord.2.1 coord.2.2) = none := by
    intro coord h
    have hval : worldPosToGridCoord ⟨99, 99, 99⟩ cornerGrid.worldBounds
        cornerGrid.resolution true = some ((19 : ℤ), (19 : ℤ), (19 : ℤ)) := by
      with_unfolding_all decide
    rw [hval] at h
    cases Option.some.inj h
    with_unfolding_all decide
  exact ((getCellAtWorldPos_ring_spec cornerGrid ⟨99, 99, 99⟩ hex hcl
    ((19 : ℤ), (19 : ℤ), (19 : ℤ))
    (by with_unfolding_all decide)).1).mpr (by with_unfolding_all decide)

theorem lookup_mem {α β : Type} [BEq α] [LawfulBEq α] (l : List (α × β))
    (k : α) (v : β) (h : l.lookup k = some v) : (k, v) ∈ l := by
  induction l with
  | nil => simp [List.lookup] at h
  | cons e t ih =>
    rw [List.lookup] at h
    split at h
    · rename_i heq
      cases h
      have : k = e.1 := by simpa using heq
      subst this
      exact List.mem_cons_self _ _
    · exact List.mem_cons_of_mem _ (ih h)

theorem lookup_eq_none_of_not_mem {α β : Type} [BEq α] [LawfulBEq α]
    (l : List (α × β)) (k : α) (h : k ∉ l.map Prod.fst) :
    l.lookup k = none := by
  induction l with
  | nil => rfl
  | cons e t ih =>
    rw [List.lookup]
    have hne : ¬ k = e.1 := by
      intro hk
      exact h (List.mem_map.mpr ⟨e, List.mem_cons_self _ _, hk.symm⟩)
    have hbeq : (k == e.1) = false := by
      simpa using hne
    rw [hbeq]
    exact ih (fun hm => h (List.mem_cons_of_mem _ hm))

theorem nodup_entry_lookup {α β : Type} [BEq α] [LawfulBEq α]
    (l : List (α × β)) (hnd : (l.map Prod.fst).Nodup) :
    ∀ e ∈ l, l.lookup e.1 = some e.2 := by
  induction l with
  | nil => intro e he; simp at he
  | cons a t ih =>
    intro e he
    rw [List.map_cons, List.nodup_cons] at hnd
    rcases List.mem_cons.mp he with rfl | hm
    · rw [List.lookup]
      simp
    · rw [List.lookup]
      have hne : (e.1 == a.1) = false := by
        have : ¬ e.1 = a.1 := by
          intro hk
          exact hnd.1 (hk ▸ List.mem_map.mpr ⟨e, hm, rfl⟩)
        simpa using this
      rw [hne]
      exact ih hnd.2 e hm

theorem updateAssoc_lookup_self {α β : Type} [BEq α] [LawfulBEq α]
    [DecidableEq α] (m : List (α × β)) (k : α) (v : β) :
    (updateAssoc m k v).lookup k = some v := by
  induction m with
  | nil => simp [updateAssoc, List.lookup]
  | cons e t ih =>
    obtain ⟨k0, v0⟩ := e
    simp only [updateAssoc]
    split
    · rw [List.lookup]
      simp
    · rw [List.lookup]
      rename_i hne
      have : (k == k0) = false := by
        simp only [beq_eq_false_iff_ne, ne_eq]
        intro hk
        exact hne hk.symm
      rw [this]
      exact ih

theorem updateAssoc_lookup_ne {α β : Type} [BEq α] [LawfulBEq α]
    [DecidableEq α] (m : List (α × β)) (k : α) (v : β) (k2 : α)
    (h : ¬ k2 = k) :
    (updateAssoc m k v).lookup k2 = m.lookup k2 := by
  have hb : (k2 == k) = false := by simpa using h
  induction m with
  | nil =>
    simp only [updateAssoc, List.lookup, hb]
  | cons e t ih =>
    obtain ⟨k0, v0⟩ := e
    simp only [updateAssoc]
    split
    · rename_i hk0
      rw [List.lookup, List.lookup, hb]
      have hb0 : (k2 == k0) = false := by
        simp only [beq_eq_false_iff_ne, ne_eq]
        rw [hk0]
        exact h
      rw [hb0]
    · rw [List.lookup, List.lookup]
      by_cases hk2 : k2 = k0
      · have hb2 : (k2 == k0) = true := by simpa using hk2
        rw [hb2]
      · have hb2 : (k2 == k0) = false := by simpa using hk2
        rw [hb2]
        exact ih

theorem updateAssoc_keys_sub {α β : Type} [DecidableEq α]
    (m : List (α × β)) (k : α) (v : β) (x : α)
    (h : x ∈ (updateAssoc m k v).map Prod.fst) :
    x ∈ m.map Prod.fst ∨ x = k := by
  induction m with
  | nil => simpa [updateAssoc] using h
  | cons e t ih =>
    obtain ⟨k0, v0⟩ := e
    simp only [updateAssoc] at h
    split at h
    · simp only [List.map_cons, List.mem_cons] at h ⊢
      tauto
    · simp only [List.map_cons, List.mem_cons] at h ⊢
      rcases h with h1 | h1
      · exact Or.inl (Or.inl h1)
      · rcases ih h1 with h2 | h2
        · exact Or.inl (Or.inr h2)
        · exact Or.inr h2

theorem updateAssoc_keys_nodup {α β : Type} [DecidableEq α]
    (m : List (α × β)) (k : α) (v : β)
    (h : (m.map Prod.fst).Nodup) :
    ((updateAssoc m k v).map Prod.fst).Nodup := by
  induction m with
  | nil => simp [updateAssoc]
  | cons e t ih =>
    obtain ⟨k0, v0⟩ := e
    rw [List.map_cons, List.nodup_cons] at h
    simp only [updateAssoc]
    split
    · rename_i hk0
      subst hk0
      rw [List.map_cons, List.nodup_cons]
      exact ⟨h.1, h.2⟩
    · rename_i hk0
      rw [List.map_cons, List.nodup_cons]
      refine ⟨?_, ih h.2⟩
      intro hmem
      rcases updateAssoc_keys_sub t k v k0 hmem with h1 | h1
      · exact h.1 h1
      · exact hk0 h1

theorem cellLabelsOf_keys_nodup (grid : SpatialGrid) :
    ((cellLabelsOf grid).map Prod.fst).Nodup := by
  unfold cellLabelsOf
  have haux : ∀ (l : List (GridKey × VoxelCell))
      (acc : List (GridKey × CellLabel)),
      (acc.map Prod.fst).Nodup →
      ((l.foldl (fun m e =>
          if e.2.splatCount < MIN_SPLATS_FOR_LABEL then m
          else updateAssoc m e.1
            (classifyCell e.2 grid.worldBounds.min.y
              (getSize grid.worldBounds).y)) acc).map Prod.fst).Nodup := by
    intro l
    induction l with
    | nil => intro acc h; exact h
    | cons e t ih =>
      intro acc h
      rw [List.foldl_cons]
      by_cases hc : e.2.splatCount < MIN_SPLATS_FOR_LABEL
      · rw [if_pos hc]
        exact ih acc h
      · rw [if_neg hc]
        exact ih _ (updateAssoc_keys_nodup acc e.1 _ h)
  exact haux grid.cells [] (by simp)

theorem cellLabelsOf_lookup (grid : SpatialGrid)
    (hnd : (grid.cells.map Prod.fst).Nodup) (k : GridKey) :
    (cellLabelsOf grid).lookup k =
      match grid.cells.lookup k with
      | none => none
      | some c =>
          if c.splatCount < MIN_SPLATS_FOR_LABEL then none
          else some (classifyCell c grid.worldBounds.min.y
            (getSize grid.worldBounds).y) := by
  unfold cellLabelsOf
  have haux : ∀ (l : List (GridKey × VoxelCell))
      (acc : List (GridKey × CellLabel)),
      (l.map Prod.fst).Nodup →
      (l.foldl (fun m e =>
          if e.2.splatCount < MIN_SPLATS_FOR_LABEL then m
          else updateAssoc m e.1
            (classifyCell e.2 grid.worldBounds.min.y
              (getSize grid.worldBounds).y)) acc).lookup k =
        match l.lookup k with
        | none => acc.lookup k
        | some c =>
            if c.splatCount < MIN_SPLATS_FOR_LABEL then acc.lookup k
            else some (classifyCell c grid.worldBounds.min.y
              (getSize grid.worldBounds).y) := by
    intro l
    induction l with
    | nil => intro acc _; rfl
    | cons e t ih =>
      intro acc hnd2
      rw [List.map_cons, List.nodup_cons] at hnd2
      rw [List.foldl_cons, List.lookup]
      by_cases hk : k = e.1
      · subst hk
        have hbeq : (e.1 == e.1) = true := by simp
        rw [hbeq]
        have hnone : t.lookup e.1 = none :=
          lookup_eq_none_of_not_mem t e.1 hnd2.1
        rw [ih _ hnd2.2, hnone]
        dsimp only
        by_cases hc : e.2.splatCount < MIN_SPLATS_FOR_LABEL
        · rw [if_pos hc, if_pos hc]
        · rw [if_neg hc, if_neg hc]
          exact updateAssoc_lookup_self acc e.1 _
      · have hbeq : (k == e.1) = false := by simpa using hk
        rw [hbeq]
        rw [ih _ hnd2.2]
        by_cases hc : e.2.splatCount < MIN_SPLATS_FOR_LABEL
        · rw [if_pos hc]
        · rw [if_neg hc]
          cases htl : t.lookup k with
          | none =>
            dsimp only
            exact updateAssoc_lookup_ne acc e.1 _ k hk
          | some c2 =>
            dsimp only
            by_cases hc2 : c2.splatCount < MIN_SPLATS_FOR_LABEL
            · rw [if_pos hc2, if_pos hc2]
              exact updateAssoc_lookup_ne acc e.1 _ k hk
            · rw [if_neg hc2, if_neg hc2]
  exact haux grid.cells [] hnd

theorem labelIs_unique (m : List (GridKey × CellLabel)) (k : GridKey)
    (L1 L2 : String) (h1 : labelIs m k L1) (h2 : labelIs m k L2) :
    L1 = L2 := by
  obtain ⟨cl1, hl1, he1⟩ := h1
  obtain ⟨cl2, hl2, he2⟩ := h2
  rw [hl1] at hl2
  cases Option.some.inj hl2
  rw [← he1, ← he2]

theorem reach_labelIs (grid : SpatialGrid)
    (m : List (GridKey × CellLabel)) (L : String) (s k : GridKey)
    (hs : labelIs m s L) (h : labelConnected grid m L s k) :
    labelIs m k L := by
  induction h with
  | refl => exact hs
  | tail _ hstep ih => exact hstep.2.2.2

set_option maxHeartbeats 1000000 in
theorem neighborKeys_symm (k1 k2 : GridKey) (h : k2 ∈ neighborKeys k1) :
    k1 ∈ neighborKeys k2 := by
  obtain ⟨x1, y1, z1⟩ := k1
  obtain ⟨x2, y2, z2⟩ := k2
  simp only [neighborKeys, List.mem_cons, List.not_mem_nil, or_false,
    Prod.mk.injEq] at h ⊢
  omega

theorem labelStep_symm (grid : SpatialGrid)
    (m : List (GridKey × CellLabel)) (L : String)
    (hmg : ∀ k cl, m.lookup k = some cl → ∃ c,
      grid.cells.lookup k = some c ∧ c.gridPos = k ∧ inBounds grid k)
    (k1 k2 : GridKey) (h : labelStep grid m L k1 k2) :
    labelStep grid m L k2 k1 := by
  obtain ⟨hadj, _, h1, h2⟩ := h
  have h1c := h1
  obtain ⟨cl1, hl1, -⟩ := h1c
  obtain ⟨c1, -, -, hb1⟩ := hmg k1 cl1 hl1
  exact ⟨neighborKeys_symm k1 k2 hadj, hb1, h2, h1⟩

theorem labelConnected_symm (grid : SpatialGrid)
    (m : List (GridKey × CellLabel)) (L : String)
    (hmg : ∀ k cl, m.lookup k = some cl → ∃ c,
      grid.cells.lookup k = some c ∧ c.gridPos = k ∧ inBounds grid k)
    (k1 k2 : GridKey) (h : labelConnected grid m L k1 k2) :
    labelConnected grid m L k2 k1 := by
  induction h with
  | refl => exact Relation.ReflTransGen.refl
  | tail _ hstep ih =>
    exact Relation.ReflTransGen.trans
      (Relation.ReflTransGen.single (labelStep_symm grid m L hmg _ _ hstep))
      ih

theorem floodFillLoop_nil (grid : SpatialGrid)
    (m : List (GridKey × CellLabel)) (L : String)
    (visited : Finset GridKey) (component : List GridKey) :
    floodFillLoop grid m L [] visited component = (visited, component) := by
  rw [floodFillLoop]

theorem floodFillLoop_spec (grid : SpatialGrid)
    (m : List (GridKey × CellLabel)) (L : String) (start : GridKey)
    (V0 : Finset GridKey)
    (hmg : ∀ k cl, m.lookup k = some cl → ∃ c,
      grid.cells.lookup k = some c ∧ c.gridPos = k ∧ inBounds grid k)
    (hstartL : labelIs m start L) (hstV0 : start ∉ V0)
    (queue : List GridKey) (visited : Finset GridKey)
    (component : List GridKey)
    (hvis : visited = V0 ∪ component.toFinset)
    (hnd : component.Nodup)
    (hcomp : ∀ c ∈ component, labelIs m c L ∧ labelConnected grid m L start c)
    (hq : ∀ k ∈ queue, labelIs m k L → labelConnected grid m L start k)
    (hcl : ∀ c ∈ component, ∀ k, labelStep grid m L c k →
      k ∈ visited ∨ k ∈ queue)
    (hst : start ∈ component ∨ start ∈ queue)
    (hV0 : ∀ c ∈ component, c ∉ V0) :
    FFPost grid m L start V0 component
      (floodFillLoop grid m L queue visited component) := by
  induction queue, visited, component using floodFillLoop.induct grid m L with
  | case1 visited component =>
    rw [floodFillLoop_nil]
    refine ⟨hnd, ⟨[], (List.append_nil _).symm⟩, hvis, hcomp, ?_, ?_, hV0⟩
    · intro c hc k hstep
      rcases hcl c hc k hstep with h1 | h1
      · exact h1
      · exact absurd h1 (List.not_mem_nil k)
    · rcases hst with h1 | h1
      · exact h1
      · exact absurd h1 (List.not_mem_nil start)
  | case2 key rest visited component hv ih =>
    rw [floodFillLoop, dif_pos hv]
    refine ih hvis hnd hcomp ?_ ?_ ?_ hV0
    · exact fun k hk => hq k (List.mem_cons_of_mem _ hk)
    · intro c hc k hstep
      rcases hcl c hc k hstep with h1 | h1
      · exact Or.inl h1
      · rcases List.mem_cons.mp h1 with rfl | h2
        · exact Or.inl hv
        · exact Or.inr h2
    · rcases hst with h1 | h1
      · exact Or.inl h1
      · rcases List.mem_cons.mp h1 with h2 | h2
        · subst h2
          rw [hvis] at hv
          rcases Finset.mem_union.mp hv with h3 | h3
          · exact absurd h3 hstV0
          · exact Or.inl (List.mem_toFinset.mp h3)
        · exact Or.inr h2
  | case3 key rest visited component hv hl ih =>
    rw [floodFillLoop, dif_neg hv]
    split
    · rename_i heq
      refine ih hvis hnd hcomp ?_ ?_ ?_ hV0
      · exact fun k hk => hq k (List.mem_cons_of_mem _ hk)
      · intro c hc k hstep
        rcases hcl c hc k hstep with h1 | h1
        · exact Or.inl h1
        · rcases List.mem_cons.mp h1 with rfl | h2
          · obtain ⟨cl0, hcl0, -⟩ := hstep.2.2.2
            rw [hl] at hcl0
            exact Option.noConfusion hcl0
          · exact Or.inr h2
      · rcases hst with h1 | h1
        · exact Or.inl h1
        · rcases List.mem_cons.mp h1 with h2 | h2
          · subst h2
            obtain ⟨cl0, hcl0, -⟩ := hstartL
            rw [hl] at hcl0
            exact Option.noConfusion hcl0
          · exact Or.inr h2
    · rename_i labelInfo heq
      rw [hl] at heq
      exact Option.noConfusion heq
  | case4 key rest visited component hv labelInfo hl hlab ih =>
    rw [floodFillLoop, dif_neg hv]
    split
    · rename_i heq
      rw [hl] at heq
      exact Option.noConfusion heq
    · rename_i labelInfo2 heq
      rw [hl] at heq
      cases Option.some.inj heq
      rw [if_pos hlab]
      refine ih hvis hnd hcomp ?_ ?_ ?_ hV0
      · exact fun k hk => hq k (List.mem_cons_of_mem _ hk)
      · intro c hc k hstep
        rcases hcl c hc k hstep with h1 | h1
        · exact Or.inl h1
        · rcases List.mem_cons.mp h1 with rfl | h2
          · obtain ⟨cl0, hcl0, hlab0⟩ := hstep.2.2.2
            rw [hl] at hcl0
            cases Option.some.inj hcl0
            exact absurd hlab0 hlab
          · exact Or.inr h2
      · rcases hst with h1 | h1
        · exact Or.inl h1
        · rcases List.mem_cons.mp h1 with h2 | h2
          · subst h2
            obtain ⟨cl0, hcl0, hlab0⟩ := hstartL
            rw [hl] at hcl0
            cases Option.some.inj hcl0
            exact absurd hlab0 hlab
          · exact Or.inr h2
  | case5 key rest visited component hv labelInfo hl hlab hcellnone ih =>
    obtain ⟨c0, hc0, -, -⟩ := hmg key labelInfo hl
    rw [hcellnone] at hc0
    exact Option.noConfusion hc0
  | case6 key rest visited component hv labelInfo hl hlab seedCell hcell ih =>
    have hLkey : labelIs m key L := ⟨labelInfo, hl, not_not.mp hlab⟩
    have hkeyC : key ∉ component := by
      intro hk
      exact hv (hvis ▸ Finset.mem_union_right _ (List.mem_toFinset.mpr hk))
    have hkeyV0 : key ∉ V0 := by
      intro hk
      exact hv (hvis ▸ Finset.mem_union_left _ hk)
    have hconnkey : labelConnected grid m L start key :=
      hq key (List.mem_cons_self _ _) hLkey
    have hgp : seedCell.gridPos = key := by
      obtain ⟨c0, hc0, hc0p, -⟩ := hmg key labelInfo hl
      rw [hcell] at hc0
      cases Option.some.inj hc0
      exact hc0p
    rw [floodFillLoop, dif_neg hv]
    split
    · rename_i heq
      rw [hl] at heq
      exact Option.noConfusion heq
    · rename_i labelInfo2 heq
      rw [hl] at heq
      cases Option.some.inj heq
      rw [if_neg hlab, hcell]
      have H := ih ?hvis2 ?hnd2 ?hcomp2 ?hq2 ?hcl2 ?hst2 ?hV02
      case hvis2 =>
        rw [hvis]
        ext a
        simp only [Finset.mem_insert, Finset.mem_union, List.mem_toFinset,
          List.mem_append, List.mem_singleton]
        tauto
      case hnd2 =>
        rw [List.nodup_append]
        exact ⟨hnd, List.nodup_singleton _,
          fun a ha hb => hkeyC ((List.mem_singleton.mp hb) ▸ ha)⟩
      case hcomp2 =>
        intro c hc
        rcases List.mem_append.mp hc with h1 | h1
        · exact hcomp c h1
        · rw [List.mem_singleton.mp h1]
          exact ⟨hLkey, hconnkey⟩
      case hq2 =>
        intro k hk hkL
        rcases List.mem_append.mp hk with h1 | h1
        · rw [List.mem_reverse] at h1
          have hf := List.mem_filter.mp h1
          have hb : inBounds grid k := by
            have h2 := hf.2
            rw [Bool.and_assoc, Bool.and_eq_true] at h2
            exact of_decide_eq_true h2.1
          have hadj : k ∈ neighborKeys key := hgp ▸ hf.1
          exact hconnkey.tail ⟨hadj, hb, hLkey, hkL⟩
        · exact hq k (List.mem_cons_of_mem _ h1) hkL
      case hcl2 =>
        intro c hc k hstep
        rcases List.mem_append.mp hc with h1 | h1
        · rcases hcl c h1 k hstep with h2 | h2
          · exact Or.inl (Finset.mem_insert_of_mem h2)
          · rcases List.mem_cons.mp h2 with rfl | h3
            · exact Or.inl (Finset.mem_insert_self _ _)
            · exact Or.inr (List.mem_append_right _ h3)
        · rw [List.mem_singleton.mp h1] at hstep
          obtain ⟨hadj, hb, -, hkL⟩ := hstep
          by_cases hkv : k ∈ insert key visited
          · exact Or.inl hkv
          · refine Or.inr (List.mem_append_left _ ?_)
            rw [List.mem_reverse]
            refine List.mem_filter.mpr ⟨hgp ▸ hadj, ?_⟩
            obtain ⟨cl0, hcl0, -⟩ := hkL
            rw [Bool.and_assoc, Bool.and_eq_true, Bool.and_eq_true]
            refine ⟨decide_eq_true hb, ?_, ?_⟩
            · simp [hkv]
            · rw [hcl0]
              rfl
      case hst2 =>
        rcases hst with h1 | h1
        · exact Or.inl (List.mem_append_left _ h1)
        · rcases List.mem_cons.mp h1 with h2 | h2
          · exact Or.inl (List.mem_append_right _
              (List.mem_singleton.mpr h2))
          · exact Or.inr (List.mem_append_right _ h2)
      case hV02 =>
        intro c hc
        rcases List.mem_append.mp hc with h1 | h1
        · exact hV0 c h1
        · rw [List.mem_singleton.mp h1]
          exact hkeyV0
      obtain ⟨hnd3, ⟨new, hres2⟩, hv3, hc3, hclos3, hst3, hV03⟩ := H
      exact ⟨hnd3, ⟨[key] ++ new, by rw [hres2, List.append_assoc]⟩, hv3,
        hc3, hclos3, hst3, hV03⟩

theorem floodFill_component (grid : SpatialGrid)
    (m : List (GridKey × CellLabel)) (L : String) (start : GridKey)
    (V0 : Finset GridKey)
    (hmg : ∀ k cl, m.lookup k = some cl → ∃ c,
      grid.cells.lookup k = some c ∧ c.gridPos = k ∧ inBounds grid k)
    (hstartL : labelIs m start L)
    (hclosed : ∀ k, labelConnected grid m L start k → k ∉ V0) :
    FFPost grid m L start V0 [] (floodFill grid m start L V0) ∧
    ∀ k, k ∈ (floodFill grid m start L V0).2 ↔
      labelConnected grid m L start k := by
  have hpost := floodFillLoop_spec grid m L start V0 hmg hstartL
    (hclosed start Relation.ReflTransGen.refl) [start] V0 []
    (by simp) List.nodup_nil
    (fun c hc => absurd hc (List.not_mem_nil c))
    (fun k hk _ => by
      rw [List.mem_singleton.mp hk]
      exact Relation.ReflTransGen.refl)
    (fun c hc _ h => absurd hc (List.not_mem_nil c))
    (Or.inr (List.mem_cons_self _ _))
    (fun c hc => absurd hc (List.not_mem_nil c))
  refine ⟨hpost, ?_⟩
  obtain ⟨hnd3, hext3, hv3, hlab3, hclos3, hst3, hV03⟩ := hpost
  intro k
  constructor
  · intro hk
    exact (hlab3 k hk).2
  · intro hconn
    induction hconn with
    | refl => exact hst3
    | tail hcn hstep ih =>
      rename_i b c
      have hcRes := hclos3 b ih c hstep
      rw [hv3] at hcRes
      rcases Finset.mem_union.mp hcRes with h1 | h1
      · exact absurd h1 (hclosed c (Relation.ReflTransGen.tail hcn hstep))
      · exact List.mem_toFinset.mp h1

theorem buildRegionsLoop_cons_visited (grid : SpatialGrid)
    (m rest : List (GridKey × CellLabel)) (key : GridKey)
    (labelInfo : CellLabel) (visited : Finset GridKey)
    (acc : List SemanticRegion) (hv : key ∈ visited) :
    buildRegionsLoop grid m ((key, labelInfo) :: rest) visited acc =
      buildRegionsLoop grid m rest visited acc := by
  rw [buildRegionsLoop, if_pos hv]

theorem buildRegionsLoop_cons_new (grid : SpatialGrid)
    (m rest : List (GridKey × CellLabel)) (key : GridKey)
    (labelInfo : CellLabel) (visited : Finset GridKey)
    (acc : List SemanticRegion) (hv : key ∉ visited)
    (hlen : ¬ (floodFill grid m key labelInfo.label visited).2.length = 0) :
    buildRegionsLoop grid m ((key, labelInfo) :: rest) visited acc =
      buildRegionsLoop grid m rest
        (floodFill grid m key labelInfo.label visited).1
        (acc ++ [mkRegion grid m labelInfo.label
          (floodFill grid m key labelInfo.label visited).2]) := by
  rw [buildRegionsLoop, if_neg hv]
  dsimp only
  rw [if_neg hlen]

theorem buildRegionsLoop_spec (grid : SpatialGrid)
    (m : List (GridKey × CellLabel))
    (hmg : ∀ k cl, m.lookup k = some cl → ∃ c,
      grid.cells.lookup k = some c ∧ c.gridPos = k ∧ inBounds grid k)
    (entries : List (GridKey × CellLabel)) :
    ∀ (visited : Finset GridKey) (acc : List SemanticRegion),
    (∀ e ∈ entries, m.lookup e.1 = some e.2) →
    (∀ rg ∈ acc, rg.gridCells ≠ [] ∧ rg.gridCells.Nodup ∧
      ∃ s, labelIs m s rg.label ∧
        ∀ k, k ∈ rg.gridCells ↔ labelConnected grid m rg.label s k) →
    (∀ k, k ∈ visited ↔ ∃ rg ∈ acc, k ∈ rg.gridCells) →
    List.Pairwise (fun r1 r2 => ∀ k, k ∈ r1.gridCells → k ∉ r2.gridCells)
      acc →
    (∃ ext, buildRegionsLoop grid m entries visited acc = acc ++ ext) ∧
    (∀ rg ∈ buildRegionsLoop grid m entries visited acc,
      rg.gridCells ≠ [] ∧ rg.gridCells.Nodup ∧
      ∃ s, labelIs m s rg.label ∧
        ∀ k, k ∈ rg.gridCells ↔ labelConnected grid m rg.label s k) ∧
    (∀ e ∈ entries, ∃ rg ∈ buildRegionsLoop grid m entries visited acc,
      e.1 ∈ rg.gridCells) ∧
    List.Pairwise (fun r1 r2 => ∀ k, k ∈ r1.gridCells → k ∉ r2.gridCells)
      (buildRegionsLoop grid m entries visited acc) := by
  induction entries with
  | nil =>
    intro visited acc hent hinv hvisInv hpw
    rw [buildRegionsLoop]
    exact ⟨⟨[], (List.append_nil _).symm⟩, hinv,
      fun e he => absurd he (List.not_mem_nil e), hpw⟩
  | cons e rest ih =>
    intro visited acc hent hinv hvisInv hpw
    obtain ⟨key, labelInfo⟩ := e
    have hlook : m.lookup key = some labelInfo :=
      hent (key, labelInfo) (List.mem_cons_self _ _)
    have hrestEnt : ∀ e2 ∈ rest, m.lookup e2.1 = some e2.2 :=
      fun e2 he2 => hent e2 (List.mem_cons_of_mem _ he2)
    by_cases hv : key ∈ visited
    · rw [buildRegionsLoop_cons_visited grid m rest key labelInfo visited
        acc hv]
      obtain ⟨⟨ext, heq⟩, hall, hcov, hpw2⟩ :=
        ih visited acc hrestEnt hinv hvisInv hpw
      refine ⟨⟨ext, heq⟩, hall, ?_, hpw2⟩
      intro e2 he2
      rcases List.mem_cons.mp he2 with rfl | h2
      · obtain ⟨rg, hrg, hkrg⟩ := (hvisInv key).mp hv
        exact ⟨rg, heq ▸ List.mem_append_left _ hrg, hkrg⟩
      · exact hcov e2 h2
    · have hkeyL : labelIs m key labelInfo.label := ⟨labelInfo, hlook, rfl⟩
      have hclosed : ∀ k,
          labelConnected grid m labelInfo.label key k → k ∉ visited := by
        intro k hconn hkv
        obtain ⟨rg, hrg, hkrg⟩ := (hvisInv k).mp hkv
        obtain ⟨-, -, s, hsL, hchar⟩ := hinv rg hrg
        have hks : labelConnected grid m rg.label s k := (hchar k).mp hkrg
        have hkL2 : labelIs m k rg.label :=
          reach_labelIs grid m rg.label s k hsL hks
        have hkL1 : labelIs m k labelInfo.label :=
          reach_labelIs grid m labelInfo.label key k hkeyL hconn
        have hLeq : labelInfo.label = rg.label :=
          labelIs_unique m k labelInfo.label rg.label hkL1 hkL2
        have hks2 : labelConnected grid m rg.label k s :=
          labelConnected_symm grid m rg.label hmg s k hks
        have hconn2 : labelConnected grid m rg.label key k := hLeq ▸ hconn
        have hkeys : labelConnected grid m rg.label key s :=
          hconn2.trans hks2
        have hskey : labelConnected grid m rg.label s key :=
          labelConnected_symm grid m rg.label hmg key s hkeys
        exact hv ((hvisInv key).mpr ⟨rg, hrg, (hchar key).mpr hskey⟩)
      obtain ⟨hpost, hCH⟩ := floodFill_component grid m labelInfo.label key
        visited hmg hkeyL hclosed
      obtain ⟨hndF, -, hvF, hlabF, -, hstF, hV0F⟩ := hpost
      have hlen : ¬ (floodFill grid m key labelInfo.label visited).2.length
          = 0 := by
        intro h0
        rw [List.length_eq_zero] at h0
        rw [h0] at hstF
        exact absurd hstF (List.not_mem_nil key)
      rw [buildRegionsLoop_cons_new grid m rest key labelInfo visited acc
        hv hlen]
      set ff := floodFill grid m key labelInfo.label visited with hff
      set newRg := mkRegion grid m labelInfo.label ff.2 with hnewRg
      have hnewCells : newRg.gridCells = ff.2 := rfl
      have hnewLabel : newRg.label = labelInfo.label := rfl
      have hinv2 : ∀ rg ∈ acc ++ [newRg], rg.gridCells ≠ [] ∧
          rg.gridCells.Nodup ∧
          ∃ s, labelIs m s rg.label ∧
            ∀ k, k ∈ rg.gridCells ↔ labelConnected grid m rg.label s k := by
        intro rg hrg
        rcases List.mem_append.mp hrg with h1 | h1
        · exact hinv rg h1
        · rw [List.mem_singleton.mp h1]
          refine ⟨?_, hndF, key, hkeyL, hCH⟩
          intro h0
          rw [hnewCells] at h0
          rw [h0] at hstF
          exact absurd hstF (List.not_mem_nil key)
      have hvisInv2 : ∀ k, k ∈ ff.1 ↔ ∃ rg ∈ acc ++ [newRg],
          k ∈ rg.gridCells := by
        intro k
        rw [hvF]
        constructor
        · intro hk
          rcases Finset.mem_union.mp hk with h1 | h1
          · obtain ⟨rg, hrg, hkrg⟩ := (hvisInv k).mp h1
            exact ⟨rg, List.mem_append_left _ hrg, hkrg⟩
          · exact ⟨newRg, List.mem_append_right _ (List.mem_singleton.mpr
              rfl), List.mem_toFinset.mp h1⟩
        · rintro ⟨rg, hrg, hkrg⟩
          rcases List.mem_append.mp hrg with h1 | h1
          · exact Finset.mem_union_left _ ((hvisInv k).mpr ⟨rg, h1, hkrg⟩)
          · rw [List.mem_singleton.mp h1] at hkrg
            exact Finset.mem_union_right _ (List.mem_toFinset.mpr hkrg)
      have hpw2 : List.Pairwise
          (fun r1 r2 => ∀ k, k ∈ r1.gridCells → k ∉ r2.gridCells)
          (acc ++ [newRg]) := by
        rw [List.pairwise_append]
        refine ⟨hpw, List.pairwise_singleton _ _, ?_⟩
        intro r1 hr1 r2 hr2 k hk1
        rw [List.mem_singleton.mp hr2, hnewCells]
        intro hk2
        exact hV0F k hk2 ((hvisInv k).mpr ⟨r1, hr1, hk1⟩)
      obtain ⟨⟨ext, heq⟩, hall, hcov, hpw3⟩ :=
        ih ff.1 (acc ++ [newRg]) hrestEnt hinv2 hvisInv2 hpw2
      refine ⟨⟨[newRg] ++ ext, by rw [heq, List.append_assoc]⟩, hall, ?_,
        hpw3⟩
      intro e2 he2
      rcases List.mem_cons.mp he2 with rfl | h2
      · exact ⟨newRg, heq ▸ List.mem_append_left _
          (List.mem_append_right _ (List.mem_singleton.mpr rfl)),
          hnewCells ▸ hstF⟩
      · exact hcov e2 h2

theorem cellLabels_ground (grid : SpatialGrid) (hwf : WellFormedGrid grid) :
    ∀ k cl, (cellLabelsOf grid).lookup k = some cl → ∃ c,
      grid.cells.lookup k = some c ∧ c.gridPos = k ∧ inBounds grid k ∧
      ¬ c.splatCount < MIN_SPLATS_FOR_LABEL := by
  intro k cl hlk
  have h := cellLabelsOf_lookup grid hwf.1 k
  rw [hlk] at h
  cases hck : grid.cells.lookup k with
  | none =>
    rw [hck] at h
    exact Option.noConfusion h
  | some c =>
    rw [hck] at h
    dsimp only at h
    by_cases hc : c.splatCount < MIN_SPLATS_FOR_LABEL
    · rw [if_pos hc] at h
      exact Option.noConfusion h
    · have hmem := lookup_mem grid.cells k c hck
      exact ⟨c, rfl, (hwf.2.1 (k, c) hmem).symm, hwf.2.2 (k, c) hmem, hc⟩

theorem buildRegions_spec (grid : SpatialGrid) (hwf : WellFormedGrid grid) :
    (∀ rg ∈ buildRegions grid (cellLabelsOf grid),
      rg.gridCells ≠ [] ∧ rg.gridCells.Nodup ∧
      ∃ s, labelIs (cellLabelsOf grid) s rg.label ∧
        ∀ k, k ∈ rg.gridCells ↔
          labelConnected grid (cellLabelsOf grid) rg.label s k) ∧
    (∀ e ∈ cellLabelsOf grid, ∃ rg ∈ buildRegions grid (cellLabelsOf grid),
      e.1 ∈ rg.gridCells) ∧
    List.Pairwise (fun r1 r2 => ∀ k, k ∈ r1.gridCells → k ∉ r2.gridCells)
      (buildRegions grid (cellLabelsOf grid)) := by
  have hmg : ∀ k cl, (cellLabelsOf grid).lookup k = some cl → ∃ c,
      grid.cells.lookup k = some c ∧ c.gridPos = k ∧ inBounds grid k := by
    intro k cl hlk
    obtain ⟨c, h1, h2, h3, -⟩ := cellLabels_ground grid hwf k cl hlk
    exact ⟨c, h1, h2, h3⟩
  obtain ⟨-, hall, hcov, hpw⟩ := buildRegionsLoop_spec grid
    (cellLabelsOf grid) hmg (cellLabelsOf grid) ∅ []
    (nodup_entry_lookup (cellLabelsOf grid) (cellLabelsOf_keys_nodup grid))
    (fun rg hrg => absurd hrg (List.not_mem_nil rg))
    (by simp)
    List.Pairwise.nil
  have hperm := List.perm_insertionSort (splatsGe grid)
    (buildRegionsLoop grid (cellLabelsOf grid) (cellLabelsOf grid) ∅ [])
  have hsymm : Symmetric (fun r1 r2 : SemanticRegion =>
      ∀ k, k ∈ r1.gridCells → k ∉ r2.gridCells) := by
    intro a b hab k hkb hka
    exact hab k hka hkb
  refine ⟨?_, ?_, ?_⟩
  · intro rg hrg
    exact hall rg (hperm.mem_iff.mp hrg)
  · intro e he
    obtain ⟨rg, hrg, hkrg⟩ := hcov e he
    exact ⟨rg, hperm.mem_iff.mpr hrg, hkrg⟩
  · exact (hperm.pairwise_iff (fun hab => hsymm hab)).mpr hpw

/-- Claim C1 (spec-modelled): with floor protection enabled, the filter drops
exactly the `⌊n * bottomQuantileReject⌋` lowest-ranked cells of the cluster's
Y-ordering (every dropped cell sits at or below every kept cell); when that
would shrink the cluster below `minProtectedCells` the unfiltered cluster is
used instead; and the rejected count (hence the accepted counts before and
after, `n` and `cells.length` of the result) is always reported. -/
theorem applyFloorProtection_spec (cells : List VoxelCell) (q : ℚ)
    (minP : ℕ) (hq0 : 0 ≤ q) (hq1 : q ≤ 1) :
    (applyFloorProtection cells ⟨true, q, minP⟩).floorRejectedCells =
      (⌊(cells.length : ℚ) * q⌋).toNat ∧
    ((applyFloorProtection cells ⟨true, q, minP⟩).applied = true ↔
      minP ≤ cells.length - (⌊(cells.length : ℚ) * q⌋).toNat) ∧
    ((applyFloorProtection cells ⟨true, q, minP⟩).applied = true →
      (applyFloorProtection cells ⟨true, q, minP⟩).cells.length =
        cells.length - (⌊(cells.length : ℚ) * q⌋).toNat ∧
      ∃ dropped,
        dropped.length = (⌊(cells.length : ℚ) * q⌋).toNat ∧
        (dropped ++
          (applyFloorProtection cells ⟨true, q, minP⟩).cells).Perm cells ∧
        ∀ d ∈ dropped,
          ∀ c ∈ (applyFloorProtection cells ⟨true, q, minP⟩).cells,
            d.worldCenter.y ≤ c.worldCenter.y) ∧
    ((applyFloorProtection cells ⟨true, q, minP⟩).applied = false →
      (applyFloorProtection cells ⟨true, q, minP⟩).cells = cells) := by
  have hk : (⌊(cells.length : ℚ) * q⌋).toNat ≤ cells.length := by
    have h1 : ⌊(cells.length : ℚ) * q⌋ ≤ (cells.length : ℤ) := by
      have h2 : (cells.length : ℚ) * q ≤ (cells.length : ℚ) := by
        nlinarith [Nat.cast_nonneg (α := ℚ) cells.length]
      calc ⌊(cells.length : ℚ) * q⌋ ≤ ⌊((cells.length : ℤ) : ℚ)⌋ := by
            exact_mod_cast Int.floor_le_floor h2
        _ = (cells.length : ℤ) := Int.floor_intCast _
    omega
  unfold applyFloorProtection
  rw [if_neg (by simp)]
  by_cases hfb : cells.length - (⌊(cells.length : ℚ) * q⌋).toNat < minP
  · rw [if_pos hfb]
    dsimp only
    refine ⟨rfl, ?_, ?_, fun _ => rfl⟩
    · exact iff_of_false (by simp) (by omega)
    · intro hap
      exact absurd hap (by simp)
  · rw [if_neg hfb]
    dsimp only
    have hslen := (List.perm_insertionSort yLe cells).length_eq
    refine ⟨rfl, iff_of_true rfl (by omega), ?_, ?_⟩
    · intro _
      refine ⟨?_, (List.insertionSort yLe cells).take
        (⌊(cells.length : ℚ) * q⌋).toNat, ?_, ?_, ?_⟩
      · dsimp only
        rw [List.length_drop, hslen]
      · rw [List.length_take, hslen]
        omega
      · dsimp only
        rw [List.take_append_drop]
        exact List.perm_insertionSort yLe cells
      · intro d hd c hc
        have hs := List.sorted_insertionSort yLe cells
        rw [← List.take_append_drop (⌊(cells.length : ℚ) * q⌋).toNat
          (List.insertionSort yLe cells)] at hs
        exact (List.pairwise_append.mp hs).2.2 d hd c hc
    · intro hap
      exact absurd hap (by simp)

theorem applyFloorProtection_spec_witness :
    (0 : ℚ) ≤ 1 / 5 ∧ (1 / 5 : ℚ) ≤ 1 ∧
    (applyFloorProtection fiveColumn ⟨true, 1 / 5, 2⟩).applied = true ∧
    (applyFloorProtection fiveColumn ⟨true, 1 / 5, 2⟩).floorRejectedCells =
      1 ∧
    (applyFloorProtection fiveColumn ⟨true, 1 / 5, 2⟩).cells =
      [floorCell (3 / 2), floorCell (5 / 2), floorCell (7 / 2),
       floorCell (9 / 2)] := by
  refine ⟨by norm_num, by norm_num, ?_, ?_, ?_⟩
  · exact ((applyFloorProtection_spec fiveColumn (1 / 5) 2 (by norm_num)
      (by norm_num)).2.1).mpr (by with_unfolding_all decide)
  · rw [(applyFloorProtection_spec fiveColumn (1 / 5) 2 (by norm_num)
      (by norm_num)).1]
    with_unfolding_all decide
  · with_unfolding_all decide

theorem serializeSpatialGridForLLM_spec_witness :
    (1 <
      (serGrid.cells.filter (fun e => decide (10 ≤ e.2.splatCount))).length) ∧
    (∃ kept dropped : List (GridKey × VoxelCell),
      (kept ++ dropped).Perm
        (serGrid.cells.filter (fun e => decide (10 ≤ e.2.splatCount))) ∧
      kept.length = 1 ∧
      (∀ a ∈ kept, ∀ b ∈ dropped, b.2.splatCount ≤ a.2.splatCount) ∧
      (serializeSpatialGridForLLM serGrid 1 10).cells =
        kept.map (fun e => serializeCellEntry e.2)) :=
  ⟨by with_unfolding_all decide,
   (serializeSpatialGridForLLM_spec serGrid 1 10).2.1
     (by with_unfolding_all decide)⟩

/-- Claim C10: the regions of `generateManifest` partition the labeled
cells.  Every stored cell with `splatCount ≥ 10` appears in some region's
`gridCells`; distinct regions' `gridCells` are pairwise disjoint and each
region's list is duplicate-free (so each labeled cell appears in exactly
one region, once); every region is non-empty; every member of a region
carries that region's label; and every member is a stored cell with at
least 10 splats. -/
theorem generateManifest_partition (grid : SpatialGrid)
    (hwf : WellFormedGrid grid) :
    (∀ e ∈ grid.cells, ¬ e.2.splatCount < MIN_SPLATS_FOR_LABEL →
      ∃ rg ∈ (generateManifest grid).regions, e.1 ∈ rg.gridCells) ∧
    List.Pairwise (fun r1 r2 => ∀ k, k ∈ r1.gridCells → k ∉ r2.gridCells)
      (generateManifest grid).regions ∧
    (∀ rg ∈ (generateManifest grid).regions,
      rg.gridCells ≠ [] ∧ rg.gridCells.Nodup) ∧
    (∀ rg ∈ (generateManifest grid).regions, ∀ k ∈ rg.gridCells,
      labelIs (cellLabelsOf grid) k rg.label) ∧
    (∀ rg ∈ (generateManifest grid).regions, ∀ k ∈ rg.gridCells,
      ∃ c, grid.cells.lookup k = some c ∧
        ¬ c.splatCount < MIN_SPLATS_FOR_LABEL) := by
  obtain ⟨hall, hcov, hpw⟩ := buildRegions_spec grid hwf
  refine ⟨?_, hpw, ?_, ?_, ?_⟩
  · intro e he hs
    have hcl : grid.cells.lookup e.1 = some e.2 :=
      nodup_entry_lookup grid.cells hwf.1 e he
    have hml : (cellLabelsOf grid).lookup e.1 =
        some (classifyCell e.2 grid.worldBounds.min.y
          (getSize grid.worldBounds).y) := by
      rw [cellLabelsOf_lookup grid hwf.1 e.1, hcl]
      dsimp only
      rw [if_neg hs]
    obtain ⟨rg, hrg, hkrg⟩ := hcov _ (lookup_mem _ _ _ hml)
    exact ⟨rg, hrg, hkrg⟩
  · intro rg hrg
    obtain ⟨h1, h2, -⟩ := hall rg hrg
    exact ⟨h1, h2⟩
  · intro rg hrg k hk
    obtain ⟨-, -, s, hsL, hchar⟩ := hall rg hrg
    exact reach_labelIs grid _ rg.label s k hsL ((hchar k).mp hk)
  · intro rg hrg k hk
    obtain ⟨-, -, s, hsL, hchar⟩ := hall rg hrg
    obtain ⟨cl, hcl, -⟩ :=
      reach_labelIs grid _ rg.label s k hsL ((hchar k).mp hk)
    obtain ⟨c, hc1, -, -, hc4⟩ := cellLabels_ground grid hwf k cl hcl
    exact ⟨c, hc1, hc4⟩

theorem generateManifest_partition_witness :
    WellFormedGrid lineGrid ∧
    ((∀ e ∈ lineGrid.cells, ¬ e.2.splatCount < MIN_SPLATS_FOR_LABEL →
      ∃ rg ∈ (generateManifest lineGrid).regions, e.1 ∈ rg.gridCells) ∧
     List.Pairwise (fun r1 r2 => ∀ k, k ∈ r1.gridCells → k ∉ r2.gridCells)
      (generateManifest lineGrid).regions ∧
     (∀ rg ∈ (generateManifest lineGrid).regions,
      rg.gridCells ≠ [] ∧ rg.gridCells.Nodup) ∧
     (∀ rg ∈ (generateManifest lineGrid).regions, ∀ k ∈ rg.gridCells,
      labelIs (cellLabelsOf lineGrid) k rg.label) ∧
     (∀ rg ∈ (generateManifest lineGrid).regions, ∀ k ∈ rg.gridCells,
      ∃ c, lineGrid.cells.lookup k = some c ∧
        ¬ c.splatCount < MIN_SPLATS_FOR_LABEL)) :=
  ⟨by with_unfolding_all decide,
   generateManifest_partition lineGrid (by with_unfolding_all decide)⟩

/-- Claim C8: in the manifest of `generateManifest`, two cells belong to a
common region exactly when the first carries some label and the second is
reachable from it through a chain of face-adjacent (6-connected), in-bounds
cells all carrying that identical label — so non-adjacent same-label cells
fall into separate regions and adjacent different-label cells never merge —
and every region member is a stored cell with at least 10 splats (sparser
cells are excluded from labeling and hence from every region). -/
theorem generateManifest_connectivity (grid : SpatialGrid)
    (hwf : WellFormedGrid grid) :
    (∀ k1 k2 : GridKey,
      (∃ rg ∈ (generateManifest grid).regions,
        k1 ∈ rg.gridCells ∧ k2 ∈ rg.gridCells) ↔
      (∃ L, labelIs (cellLabelsOf grid) k1 L ∧
        labelConnected grid (cellLabelsOf grid) L k1 k2)) ∧
    (∀ rg ∈ (generateManifest grid).regions, ∀ k ∈ rg.gridCells,
      ∀ c, grid.cells.lookup k = some c →
        ¬ c.splatCount < MIN_SPLATS_FOR_LABEL) := by
  obtain ⟨hall, hcov, hpw⟩ := buildRegions_spec grid hwf
  have hmg : ∀ k cl, (cellLabelsOf grid).lookup k = some cl → ∃ c,
      grid.cells.lookup k = some c ∧ c.gridPos = k ∧ inBounds grid k := by
    intro k cl hlk
    obtain ⟨c, h1, h2, h3, -⟩ := cellLabels_ground grid hwf k cl hlk
    exact ⟨c, h1, h2, h3⟩
  constructor
  · intro k1 k2
    constructor
    · rintro ⟨rg, hrg, hk1, hk2⟩
      obtain ⟨-, -, s, hsL, hchar⟩ := hall rg hrg
      have hs1 : labelConnected grid (cellLabelsOf grid) rg.label s k1 :=
        (hchar k1).mp hk1
      have hs2 : labelConnected grid (cellLabelsOf grid) rg.label s k2 :=
        (hchar k2).mp hk2
      refine ⟨rg.label, reach_labelIs grid _ rg.label s k1 hsL hs1, ?_⟩
      exact (labelConnected_symm grid _ rg.label hmg s k1 hs1).trans hs2
    · rintro ⟨L, hk1L, hconn⟩
      have h1c := hk1L
      obtain ⟨cl, hcl, -⟩ := h1c
      obtain ⟨rg, hrg, hk1⟩ := hcov (k1, cl) (lookup_mem _ _ _ hcl)
      obtain ⟨-, -, s, hsL, hchar⟩ := hall rg hrg
      have hs1 : labelConnected grid (cellLabelsOf grid) rg.label s k1 :=
        (hchar k1).mp hk1
      have hk1rg : labelIs (cellLabelsOf grid) k1 rg.label :=
        reach_labelIs grid _ rg.label s k1 hsL hs1
      have hLeq : L = rg.label :=
        labelIs_unique (cellLabelsOf grid) k1 L rg.label hk1L hk1rg
      have hconn2 : labelConnected grid (cellLabelsOf grid) rg.label k1 k2 :=
        hLeq ▸ hconn
      exact ⟨rg, hrg, hk1, (hchar k2).mpr (hs1.trans hconn2)⟩
  · intro rg hrg k hk c hcell
    obtain ⟨-, -, s, hsL, hchar⟩ := hall rg hrg
    obtain ⟨cl, hcl, -⟩ :=
      reach_labelIs grid _ rg.label s k hsL ((hchar k).mp hk)
    obtain ⟨c2, hc1, -, -, hc4⟩ := cellLabels_ground grid hwf k cl hcl
    rw [hcell] at hc1
    cases Option.some.inj hc1
    exact hc4

theorem generateManifest_connectivity_witness :
    WellFormedGrid elongGrid ∧
    ((∀ k1 k2 : GridKey,
      (∃ rg ∈ (generateManifest elongGrid).regions,
        k1 ∈ rg.gridCells ∧ k2 ∈ rg.gridCells) ↔
      (∃ L, labelIs (cellLabelsOf elongGrid) k1 L ∧
        labelConnected elongGrid (cellLabelsOf elongGrid) L k1 k2)) ∧
     (∀ rg ∈ (generateManifest elongGrid).regions, ∀ k ∈ rg.gridCells,
      ∀ c, elongGrid.cells.lookup k = some c →
        ¬ c.splatCount < MIN_SPLATS_FOR_LABEL)) :=
  ⟨by with_unfolding_all decide,
   generateManifest_connectivity elongGrid (by with_unfolding_all decide)⟩

end Inkling
